import Mathlib

/-!
# Verification of the trial execution engine of the mental-imagery experiment

This file gives a shallow embedding of the parts of the repository that the
claims are about, and proves (or refutes) each claim against it.

Embedded source files:
* `src/core/trial_protocol.py` — `TrialProtocol.__init__` (derived frame
  counts) and `TrialProtocol.run` (the full trial state machine, modelled as
  a step function threading an explicit state and an abort oracle).
* `src/core/enums.py` — the `TrialPhase` enumeration.
* `src/data/event_logger.py` — the `EventLogger` CSV sink.
* `src/hardware/camera_webcam.py` — `WebcamCamera` start/stop recording.

Python `int` is modelled by `Int` (frame counts can go negative before the
clamp), wall-clock durations by `ℚ`.  The display's `duration_to_frames` and
the audio manager live outside `src/`; they are taken as abstract parameters
(`d2f : ℚ → Int`) or modelled from the spec where a claim needs them.

Concurrency (the `request_abort` flag written from another thread) is
modelled by an oracle `sched : Nat → Bool`: `sched n = true` means a
`request_abort` call has happened by the time of the `n`-th abort-flag poll
of this `run` invocation.  The flag is sticky exactly as in the source: each
poll ORs the oracle into the stored flag, and `run` resets the flag at entry
(`trial_protocol.py:147`).

Exceptions: `run`'s measurement cycle accesses `TrialPhase` members that
`enums.py` does not define; in Python an undefined enum member access raises
`AttributeError`.  Fragments past that point carry a `raise` outcome
(`MStepT`), and `run` ends in one of three outcomes: returned `True`,
returned `False` from an abort poll, or a propagated exception.
-/

namespace MentalImagery

/-! ## Settings (`config/settings.py` is not under `src/`; the fields below
are exactly those read by `trial_protocol.py`). -/

/-- Timing settings consumed by `TrialProtocol` (wall-clock seconds and
repetition counts). -/
structure TimingSettings where
  trainingShapeDuration : ℚ
  trainingBlankDuration : ℚ
  recordingDelay : ℚ
  imaginationDuration : ℚ
  interImaginationDelay : ℚ
  trainingToMeasurementDelay : ℚ
  trainingRepetitions : Nat
  imaginationCycles : Nat

/-- Audio settings consumed by `TrialProtocol`. -/
structure AudioSettings where
  startImagineFreq : ℚ
  endImagineFreq : ℚ
  startImagineDuration : ℚ
  endImagineDuration : ℚ

/-- Derived frame counts computed by `TrialProtocol.__init__`
(`trial_protocol.py:71-106`), plus `warned`, true iff the
`n_recording_frames < 1` warning branch (lines 89-98) was taken. -/
structure DerivedCounts where
  nShape : Int
  nBlank : Int
  nStartBeep : Int
  nEndBeep : Int
  nRecordingDelay : Int
  nImagination : Int
  nInterDelay : Int
  nRecordingFrames : Int
  nCloseEyesWait : Int
  nStartingWait : Int
  nTrainToMeasDelay : Int
  warned : Bool

/-- `TrialProtocol.__init__` frame-count computation
(`trial_protocol.py:71-106`).  `d2f` is the stimulus window's
`duration_to_frames` (external collaborator, abstract here). -/
def protocolInit (d2f : ℚ → Int) (t : TimingSettings) (a : AudioSettings) :
    DerivedCounts :=
  let nShape := d2f t.trainingShapeDuration
  let nBlank := d2f t.trainingBlankDuration
  let nStartBeep := d2f a.startImagineDuration
  let nEndBeep := d2f a.endImagineDuration
  let nRecordingDelay := d2f t.recordingDelay
  let nImagination := d2f t.imaginationDuration
  let nInterDelay := d2f t.interImaginationDelay
  let raw := nImagination - nStartBeep - nRecordingDelay
  { nShape := nShape
    nBlank := nBlank
    nStartBeep := nStartBeep
    nEndBeep := nEndBeep
    nRecordingDelay := nRecordingDelay
    nImagination := nImagination
    nInterDelay := nInterDelay
    nRecordingFrames := if raw < 1 then 1 else raw
    warned := raw < 1
    nCloseEyesWait := d2f 5
    nStartingWait := d2f 2
    nTrainToMeasDelay :=
      if 0 < t.trainingToMeasurementDelay then d2f t.trainingToMeasurementDelay
      else 0 }

/-! ## Enumerations (`src/core/enums.py`) -/

/-- The `TrialPhase` enum exactly as defined in `src/core/enums.py:18-29`. -/
inductive TrialPhase where
  | trainingShape
  | trainingBlank
  | instructionCloseEyes
  | instructionWait
  | instructionStarting
  | instructionReady
  | measurementBeep
  | measurementSilence
  | instructionPost
  | interTrial
  deriving DecidableEq, Repr

/-- The Python member name of each `TrialPhase` member. -/
def TrialPhase.pyName : TrialPhase → String
  | .trainingShape => "TRAINING_SHAPE"
  | .trainingBlank => "TRAINING_BLANK"
  | .instructionCloseEyes => "INSTRUCTION_CLOSE_EYES"
  | .instructionWait => "INSTRUCTION_WAIT"
  | .instructionStarting => "INSTRUCTION_STARTING"
  | .instructionReady => "INSTRUCTION_READY"
  | .measurementBeep => "MEASUREMENT_BEEP"
  | .measurementSilence => "MEASUREMENT_SILENCE"
  | .instructionPost => "INSTRUCTION_POST"
  | .interTrial => "INTER_TRIAL"

/-- The member names `TrialPhase` actually defines (`enums.py:18-29`). -/
def trialPhaseMemberNames : List String :=
  ["TRAINING_SHAPE", "TRAINING_BLANK", "INSTRUCTION_CLOSE_EYES",
   "INSTRUCTION_WAIT", "INSTRUCTION_STARTING", "INSTRUCTION_READY",
   "MEASUREMENT_BEEP", "MEASUREMENT_SILENCE", "INSTRUCTION_POST",
   "INTER_TRIAL"]

/-- The phase attribute names that `TrialProtocol.run` references on
`TrialPhase` (one constructor per distinct `TrialPhase.X` expression in
`trial_protocol.py`).  Note that in the Python source these are *attribute
accesses*: a member that `enums.py` does not define raises `AttributeError`
at that point of `run`. -/
inductive RunPhase where
  | trainingShape
  | trainingBlank
  | interTrial
  | instructionCloseEyes
  | instructionWait
  | instructionStarting
  | instructionReady
  | measurementStartBeep
  | measurementRecordingDelay
  | measurementImagining
  | measurementEndBeep
  | measurementInterDelay
  | instructionPost
  deriving DecidableEq, Repr

/-- The attribute name `run` uses for each referenced phase. -/
def RunPhase.attrName : RunPhase → String
  | .trainingShape => "TRAINING_SHAPE"
  | .trainingBlank => "TRAINING_BLANK"
  | .interTrial => "INTER_TRIAL"
  | .instructionCloseEyes => "INSTRUCTION_CLOSE_EYES"
  | .instructionWait => "INSTRUCTION_WAIT"
  | .instructionStarting => "INSTRUCTION_STARTING"
  | .instructionReady => "INSTRUCTION_READY"
  | .measurementStartBeep => "MEASUREMENT_START_BEEP"
  | .measurementRecordingDelay => "MEASUREMENT_RECORDING_DELAY"
  | .measurementImagining => "MEASUREMENT_IMAGINING"
  | .measurementEndBeep => "MEASUREMENT_END_BEEP"
  | .measurementInterDelay => "MEASUREMENT_INTER_DELAY"
  | .instructionPost => "INSTRUCTION_POST"

/-! ## The run model

`TrialProtocol.run` (`trial_protocol.py:119-431`) is embedded as a function
threading an explicit state.  Every externally observable action (phase
callback, stimulus callback, draw, vsync flip, audio play/stop, event-log
row, beep-progress callback, camera start/stop, `precise_sleep`) is appended
to a trace, in program order.  `call_on_flip` callbacks are queued and
drained, in registration order, by the next `flip` — mirroring the display
surface contract (spec §6, PsychoPy `callOnFlip`). -/

/-- A callback queued by `win.call_on_flip`: the protocol only ever queues
audio `play`/`stop` and `EventLogger.log` calls. -/
inductive FAct where
  | playF (name : String)
  | stopF (name : String)
  | logF (etype detail : String)
  deriving Repr

/-- One observable action of `run`, in program order. -/
inductive TraceItem where
  /-- the `on_phase_change(phase, remaining)` callback; `tag` is the
  attribute referenced on `TrialPhase` at that spot of the source. -/
  | phaseIt (tag : RunPhase) (remaining : ℚ)
  /-- the `on_stimulus_update(state)` callback. -/
  | stimIt (state : String)
  /-- `win.draw_shape(name)`. -/
  | drawIt (shape : String)
  /-- `win.flip()` — one vsync buffer swap. -/
  | flipIt
  /-- audio manager `play` (`play := true`) or `stop` of a named cue;
  `viaFlip` is true when it ran inside an on-flip callback. -/
  | audioIt (play : Bool) (name : String) (viaFlip : Bool)
  /-- one `EventLogger.log(etype, subject, shape, rep, detail)` row
  (subject/shape/rep are fixed for the whole `run` call). -/
  | logIt (etype detail : String)
  /-- the `on_beep_progress(current, total)` callback. -/
  | beepIt (current total : Nat)
  /-- `camera.start_recording` (`start := true`) or `camera.stop_recording`. -/
  | camIt (start : Bool)
  /-- `audio.play_instruction(name)`. -/
  | instrIt (name : String)
  /-- `precise_sleep(seconds)`. -/
  | sleepIt (seconds : ℚ)
  deriving Repr

/-- The trace item produced when a queued callback runs at the flip. -/
def FAct.run : FAct → TraceItem
  | .playF n => .audioIt true n true
  | .stopF n => .audioIt false n true
  | .logF e d => .logIt e d

/-- Mutable state of one `run` invocation.  `sched` is the abort oracle
(see the file header); `flag` is `self._abort`; `polls` counts abort-flag
reads; `pending` is the display surface's on-flip callback queue;
`beepCount`, `camStarts` and `totalFrames` mirror `beep_counter`, the
number of `start_recording` calls, and `total_frames_recorded`. -/
structure RState where
  sched : Nat → Bool
  polls : Nat
  flag : Bool
  pending : List FAct
  beepCount : Nat
  camStarts : Nat
  totalFrames : Nat
  trace : List TraceItem

/-- Where in `run` an abort-flag poll read true (one constructor per
`if self._abort:` site in `trial_protocol.py`). -/
inductive AbortSite where
  | trainingTop            -- line 176
  | trainingShapeHold      -- line 201
  | trainingEndBeep        -- line 234
  | trainingBlankGap       -- line 246
  | preDelay               -- line 252
  | delayLoop              -- line 257
  | preInstruction         -- line 262
  | closeEyesWait          -- line 273
  | startingWait           -- line 286
  | preMeasurement         -- line 291
  | cycleTop               -- line 305
  | measStartBeep          -- line 326
  | measRecordingDelay     -- line 341
  | measImagining          -- line 358
  | measEndBeep            -- line 386
  | measInterDelay         -- line 402
  deriving DecidableEq, Repr

/-- Result of a fragment of `run`: either fall through with a value and the
new state, or return `False` early from abort site `site`. -/
inductive StepT (α : Type) where
  | cont (a : α) (s : RState)
  | halt (site : AbortSite) (s : RState)

/-- Sequencing of `run` fragments (early `return False` short-circuits). -/
def bindS {α β : Type} : StepT α → (α → RState → StepT β) → StepT β
  | .cont a s, f => f a s
  | .halt site s, _ => .halt site s

/-- Read `self._abort`: ORs the oracle into the sticky flag, counts the
poll, and returns the value read. -/
def check (s : RState) : Bool × RState :=
  let b := s.flag || s.sched s.polls
  (b, { s with flag := b, polls := s.polls + 1 })

/-- Append one observable action. -/
def addT (x : TraceItem) (s : RState) : RState :=
  { s with trace := s.trace ++ [x] }

/-- `win.call_on_flip(fn, …)`: queue a callback for the next flip. -/
def callOnFlip (a : FAct) (s : RState) : RState :=
  { s with pending := s.pending ++ [a] }

/-- `win.flip()`: run the queued callbacks in registration order, then
swap. -/
def flipW (s : RState) : RState :=
  { s with trace := s.trace ++ s.pending.map FAct.run ++ [.flipIt],
           pending := [] }

/-- Direct (not on-flip) `audio.stop(name)`. -/
def stopDirect (name : String) (s : RState) : RState :=
  addT (.audioIt false name false) s

/-- Direct `EventLogger.log` call from the main flow. -/
def logDirect (etype detail : String) (s : RState) : RState :=
  addT (.logIt etype detail) s

/-- The `_beep()` helper (`trial_protocol.py:164-168`). -/
def beepOp (total : Nat) (s : RState) : RState :=
  { s with beepCount := s.beepCount + 1,
           trace := s.trace ++ [.beepIt (s.beepCount + 1) total] }

/-- `camera.start_recording(path, fps)` (call only; the recorder's own
state is modelled with `WebcamCamera` below). -/
def camStartOp (s : RState) : RState :=
  { s with camStarts := s.camStarts + 1, trace := s.trace ++ [.camIt true] }

/-- `camera.stop_recording()` call (return value handled at call site). -/
def camStopOp (s : RState) : RState :=
  addT (.camIt false) s

/-- Everything fixed for one `run` invocation: the timing/audio durations
and pre-computed frame counts of the `TrialProtocol` instance, the trial
invocation parameters, and the external collaborators' observable data
(`videoPath` = `video_path_factory`, `instrDur` =
`audio.get_instruction_duration`, `recFrames k` = frames captured by the
`k`-th camera recording, `fps` = the target frame rate read at line
296-300, `frameDuration` = `win.frame_duration`). -/
structure Ctx where
  tShape : ℚ
  tBlank : ℚ
  recDelay : ℚ
  imagDur : ℚ
  interDelay : ℚ
  trainToMeas : ℚ
  startDur : ℚ
  endDur : ℚ
  reps : Nat
  cycles : Nat
  nShape : Int
  nBlank : Int
  nStartBeep : Int
  nEndBeep : Int
  nRecordingDelay : Int
  nInterDelay : Int
  nRecordingFrames : Int
  nCloseEyesWait : Int
  nStartingWait : Int
  nTrainToMeasDelay : Int
  frameDuration : ℚ
  shapeName : String
  subject : String
  rep : Nat
  videoPath : Nat → String
  isLastShape : Bool
  isLastQueueItem : Bool
  instrDur : String → ℚ
  recFrames : Nat → Nat
  fps : ℚ

/-- Build the per-run context from the constructor's derived counts
(`protocolInit`) and the trial invocation parameters, tying `run`'s frame
counts to `TrialProtocol.__init__`. -/
def mkCtx (d2f : ℚ → Int) (t : TimingSettings) (a : AudioSettings)
    (shapeName subject : String) (rep : Nat) (videoPath : Nat → String)
    (isLastShape isLastQueueItem : Bool) (instrDur : String → ℚ)
    (recFrames : Nat → Nat) (fps frameDuration : ℚ) : Ctx :=
  let c := protocolInit d2f t a
  { tShape := t.trainingShapeDuration
    tBlank := t.trainingBlankDuration
    recDelay := t.recordingDelay
    imagDur := t.imaginationDuration
    interDelay := t.interImaginationDelay
    trainToMeas := t.trainingToMeasurementDelay
    startDur := a.startImagineDuration
    endDur := a.endImagineDuration
    reps := t.trainingRepetitions
    cycles := t.imaginationCycles
    nShape := c.nShape
    nBlank := c.nBlank
    nStartBeep := c.nStartBeep
    nEndBeep := c.nEndBeep
    nRecordingDelay := c.nRecordingDelay
    nInterDelay := c.nInterDelay
    nRecordingFrames := c.nRecordingFrames
    nCloseEyesWait := c.nCloseEyesWait
    nStartingWait := c.nStartingWait
    nTrainToMeasDelay := c.nTrainToMeasDelay
    frameDuration := frameDuration
    shapeName := shapeName
    subject := subject
    rep := rep
    videoPath := videoPath
    isLastShape := isLastShape
    isLastQueueItem := isLastQueueItem
    instrDur := instrDur
    recFrames := recFrames
    fps := fps }

/-- `total_beeps` (`trial_protocol.py:153`). -/
def totalBeeps (ctx : Ctx) : Nat := ctx.reps * 2 + ctx.cycles * 2

/-- A wait loop of `k` frames: `for _ in range(k): if abort: cleanup;
return False; win.flip()`.  `cl` is the cleanup run on abort (`id`, an
audio stop, or a camera stop, depending on the site). -/
def waitLoop (site : AbortSite) (cl : RState → RState) :
    Nat → RState → StepT Unit
  | 0, s => .cont () s
  | k + 1, s =>
    let (b, s') := check s
    if b then .halt site (cl s')
    else waitLoop site cl k (flipW s')

/-- The shape-hold loop `for f in range(1, n_shape)`
(`trial_protocol.py:199-209`) carrying the `beep_stopped` local.  `f` is the
Python loop variable, `k` the remaining iteration count. -/
def shapeHold (ctx : Ctx) : Int → Nat → Bool → RState → StepT Bool
  | _, 0, bs, s => .cont bs s
  | f, k + 1, bs, s =>
    let (b, s') := check s
    if b then .halt .trainingShapeHold
      (if bs then s' else stopDirect "start_imagine" s')
    else
      let (bs', s') :=
        if f = ctx.nStartBeep then (true, callOnFlip (.stopF "start_imagine") s')
        else (bs, s')
      let s' := addT (.drawIt ctx.shapeName) s'
      let s' := flipW s'
      shapeHold ctx (f + 1) k bs' s'

/-- One training repetition (`trial_protocol.py:175-248`), loop index `i`. -/
def trainingRep (ctx : Ctx) (i : Nat) (s : RState) : StepT Unit :=
  let (b, s) := check s
  if b then .halt .trainingTop s
  else
    let s := addT (.phaseIt .trainingShape ctx.tShape) s
    let s := addT (.stimIt ("shape:" ++ ctx.shapeName)) s
    let s := addT (.drawIt ctx.shapeName) s
    let s := callOnFlip (.playF "start_imagine") s
    let s := callOnFlip (.logF "TRAINING_START_BEEP" ("flash_" ++ toString (i + 1))) s
    let s := callOnFlip (.logF "TRAINING_SHAPE_ON" ("flash_" ++ toString (i + 1))) s
    let s := flipW s
    let s := beepOp (totalBeeps ctx) s
    bindS (shapeHold ctx 1 (ctx.nShape - 1).toNat false s) fun bs s =>
    let s := if bs then s else stopDirect "start_imagine" s
    let s := addT (.phaseIt .trainingBlank ctx.endDur) s
    let s := callOnFlip (.playF "end_imagine") s
    let s := callOnFlip (.logF "TRAINING_END_BEEP" ("flash_" ++ toString (i + 1))) s
    let s := callOnFlip (.logF "TRAINING_SHAPE_OFF" ("flash_" ++ toString (i + 1))) s
    let s := flipW s
    let s := beepOp (totalBeeps ctx) s
    let s := addT (.stimIt "blank") s
    bindS (waitLoop .trainingEndBeep (stopDirect "end_imagine")
        (ctx.nEndBeep - 1).toNat s) fun _ s =>
    let s := callOnFlip (.stopF "end_imagine") s
    let s := flipW s
    let s := addT (.phaseIt .trainingBlank ctx.tBlank) s
    waitLoop .trainingBlankGap id (ctx.nBlank - 1).toNat s

/-- A loop of `k` fragment bodies indexed from `i` (Python
`for i in range(...)` over repetitions or cycles). -/
def loopU (body : Nat → RState → StepT Unit) : Nat → Nat → RState → StepT Unit
  | _, 0, s => .cont () s
  | i, k + 1, s => bindS (body i s) fun _ s' => loopU body (i + 1) k s'

/-- The optional training→measurement delay (`trial_protocol.py:250-259`). -/
def delaySeg (ctx : Ctx) (s : RState) : StepT Unit :=
  if 0 < ctx.nTrainToMeasDelay then
    let (b, s') := check s
    if b then .halt .preDelay s'
    else
      let s' := addT (.phaseIt .interTrial ctx.trainToMeas) s'
      let s' := addT (.stimIt "blank") s'
      waitLoop .delayLoop id ctx.nTrainToMeasDelay.toNat s'
  else .cont () s

/-- The instruction sequence (`trial_protocol.py:261-288`). -/
def instructionSeg (ctx : Ctx) (s : RState) : StepT Unit :=
  let (b, s) := check s
  if b then .halt .preInstruction s
  else
    let s := addT (.phaseIt .instructionCloseEyes 5) s
    let s := addT (.stimIt "instruction:close_eyes") s
    let s := addT (.instrIt "close_your_eyes") s
    let s := logDirect "INSTRUCTION_CLOSE_EYES" "" s
    let s := addT (.phaseIt .instructionWait 5) s
    bindS (waitLoop .closeEyesWait id ctx.nCloseEyesWait.toNat s) fun _ s =>
    let s := addT (.phaseIt .instructionStarting 2) s
    let s := addT (.stimIt "instruction:starting") s
    let s := addT (.instrIt "starting") s
    let s := logDirect "INSTRUCTION_STARTING" "" s
    let s := addT (.phaseIt .instructionReady 2) s
    waitLoop .startingWait id ctx.nStartingWait.toNat s

/-- Entry of the measurement phase (`trial_protocol.py:290-302`): abort
check, operator-mirror update, and `total_frames_recorded = 0`. -/
def measPrelude (s : RState) : StepT Unit :=
  let (b, s) := check s
  if b then .halt .preMeasurement s
  else
    let s := addT (.stimIt "recording") s
    .cont () { s with totalFrames := 0 }

/-- Result of a `run` fragment once an exception is possible: fall
through with a value, early `return False` from abort site `site`, or a
propagating Python exception — `attr` is the `TrialPhase` attribute name
whose access raised `AttributeError`. -/
inductive MStepT (α : Type) where
  | cont (a : α) (s : RState)
  | halt (site : AbortSite) (s : RState)
  | raise (attr : String) (s : RState)

/-- Sequencing with exception propagation (an uncaught exception
short-circuits exactly like an early `return`). -/
def bindM {α β : Type} : MStepT α → (α → RState → MStepT β) → MStepT β
  | .cont a s, f => f a s
  | .halt site s, _ => .halt site s
  | .raise e s, _ => .raise e s

/-- An exception-free fragment viewed among the exception-capable ones. -/
def liftS {α : Type} : StepT α → MStepT α
  | .cont a s => .cont a s
  | .halt site s => .halt site s

/-- A loop of `k` exception-capable fragment bodies indexed from `i`
(the Python `for i in range(...)` over the measurement cycles). -/
def loopM (body : Nat → RState → MStepT Unit) :
    Nat → Nat → RState → MStepT Unit
  | _, 0, s => .cont () s
  | i, k + 1, s => bindM (body i s) fun _ s' => loopM body (i + 1) k s'

/-- One iteration of the measurement cycle loop
(`trial_protocol.py:304-404`), loop index `i`.  After the cycle-top abort
check (line 305) and the computation of `cycle_num` and
`cycle_video_path` (neither observable), the first phase callback
(line 313) evaluates `TrialPhase.MEASUREMENT_START_BEEP` while building
the call's arguments.  `enums.py:18-29` defines no such member, so that
attribute access raises `AttributeError` — before the callback is
invoked, before any beep, and before `start_recording` (line 346).  The
rest of the loop body (lines 313-404) is unreachable on the non-abort
path, so it does not appear here. -/
def cycleBody (_ctx : Ctx) (_i : Nat) (s : RState) : MStepT Unit :=
  let (b, s) := check s
  if b then .halt .cycleTop s
  else .raise "MEASUREMENT_START_BEEP" s

/-- The post-measurement instruction and trial-end bookkeeping
(`trial_protocol.py:406-431`).  Contains no abort check. -/
def postSeg (ctx : Ctx) (s : RState) : RState :=
  let s := addT (.phaseIt .instructionPost 5) s
  let s :=
    if !ctx.isLastShape then
      let s := addT (.stimIt "instruction:open_your_eyes") s
      let s := addT (.instrIt "open_your_eyes") s
      let s := logDirect "INSTRUCTION_OPEN_EYES" "" s
      addT (.sleepIt 5) s
    else if ctx.isLastQueueItem then
      let s := addT (.stimIt "instruction:experiment_completed") s
      let s := addT (.instrIt "experiment_completed") s
      let s := logDirect "INSTRUCTION_COMPLETED" "" s
      addT (.sleepIt (max 5 (ctx.instrDur "experiment_completed" + 1))) s
    else
      let s := addT (.stimIt "instruction:next_participant") s
      let s := addT (.instrIt "next_participant_please") s
      let s := logDirect "INSTRUCTION_NEXT_PARTICIPANT" "" s
      addT (.sleepIt 5) s
  let s := addT (.stimIt "idle") s
  logDirect "TRIAL_END"
    ("total_frames=" ++ toString s.totalFrames ++ " cycles=" ++ toString ctx.cycles) s

/-- The body of `run` after the entry reset: `TRIAL_START` log, training
loop, delay, instructions, measurement prelude, measurement cycle loop
(whose first non-aborted iteration raises), post-measurement. -/
def runSteps (ctx : Ctx) (s : RState) : MStepT Unit :=
  let s := logDirect "TRIAL_START" "" s
  bindM (liftS (loopU (trainingRep ctx) 0 ctx.reps s)) fun _ s =>
  bindM (liftS (delaySeg ctx s)) fun _ s =>
  bindM (liftS (instructionSeg ctx s)) fun _ s =>
  bindM (liftS (measPrelude s)) fun _ s =>
  bindM (loopM (cycleBody ctx) 0 ctx.cycles s) fun _ s =>
  .cont () (postSeg ctx s)

/-- How `TrialProtocol.run` ends: returns `True` (natural completion),
returns `False` from an abort poll, or lets an exception propagate to the
caller (`attr` the `TrialPhase` attribute whose access raised). -/
inductive RunOutcome where
  | completed
  | aborted (site : AbortSite)
  | raised (attr : String)
  deriving DecidableEq, Repr

/-- Result of `TrialProtocol.run`: the outcome and the final observable
state. -/
structure RunResult where
  outcome : RunOutcome
  final : RState

/-- State at entry of `run`, before the line-147 reset: `abort0` is the
value `self._abort` holds when `run` is called. -/
def initState (abort0 : Bool) (sched : Nat → Bool) : RState :=
  ⟨sched, 0, abort0, [], 0, 0, 0, []⟩

/-- `TrialProtocol.run` (`trial_protocol.py:119-431`): resets the abort
flag (`line 147`), executes the trial, and returns `True` on natural
completion, returns `False` on abort, or propagates the `AttributeError`
raised at the first measurement phase callback. -/
def run (ctx : Ctx) (abort0 : Bool) (sched : Nat → Bool) : RunResult :=
  let s := initState abort0 sched
  let s := { s with flag := false }
  match runSteps ctx s with
  | .cont _ s' => ⟨.completed, s'⟩
  | .halt site s' => ⟨.aborted site, s'⟩
  | .raise e s' => ⟨.raised e, s'⟩

/-! ## Trace projections -/

/-- Event types passed to the Event Logger, in order. -/
def logTypesOf (l : List TraceItem) : List String :=
  l.filterMap fun x => match x with
    | .logIt e _ => some e
    | _ => none

/-- Phase tags passed to `on_phase_change`, in order. -/
def phaseTagsOf (l : List TraceItem) : List RunPhase :=
  l.filterMap fun x => match x with
    | .phaseIt t _ => some t
    | _ => none

/-- Camera calls, in order (`true` = `start_recording`,
`false` = `stop_recording`). -/
def camOf (l : List TraceItem) : List Bool :=
  l.filterMap fun x => match x with
    | .camIt b => some b
    | _ => none

/-- Audio/visual micro-events for the frame-alignment claims. -/
inductive AVIt where
  | drawA
  | flipA
  | playA (name : String) (viaFlip : Bool)
  | stopA (name : String) (viaFlip : Bool)
  deriving DecidableEq, Repr

/-- Draws, flips and audio play/stop calls, in order. -/
def avOf (l : List TraceItem) : List AVIt :=
  l.filterMap fun x => match x with
    | .drawIt _ => some .drawA
    | .flipIt => some .flipA
    | .audioIt true n v => some (.playA n v)
    | .audioIt false n v => some (.stopA n v)
    | _ => none

/-- Spoken-instruction and wall-clock-wait events for the
post-measurement claim. -/
inductive PostIt where
  | instrP (name : String)
  | sleepP (seconds : ℚ)
  deriving DecidableEq, Repr

/-- Instruction plays and `precise_sleep` calls, in order. -/
def postOf (l : List TraceItem) : List PostIt :=
  l.filterMap fun x => match x with
    | .instrIt n => some (.instrP n)
    | .sleepIt q => some (.sleepP q)
    | _ => none

/-- Number of `MEASUREMENT_INTER_DELAY` phase callbacks in a tag list. -/
def countInterDelay : List RunPhase → Nat
  | [] => 0
  | t :: r =>
    (if t = RunPhase.measurementInterDelay then 1 else 0) + countInterDelay r

/-- The state a fragment fell through to (or stopped in). -/
def stateOf {α : Type} : StepT α → RState
  | .cont _ s => s
  | .halt _ s => s

/-- The state an exception-capable fragment ended in. -/
def mStateOf {α : Type} : MStepT α → RState
  | .cont _ s => s
  | .halt _ s => s
  | .raise _ s => s

/-- The abort oracle of a run during which `request_abort` is never
invoked. -/
def neverAbort : Nat → Bool := fun _ => false

/-! ## Pure companions

For every fragment of `run` we define a pure companion that takes the
no-abort path (each poll reads false).  The `…_cont` lemmas below show that
whenever the checked fragment falls through, its final state *is* the pure
companion's output, for any abort oracle; the `…_total` lemmas show the
checked fragment does fall through when no abort is ever requested. -/

/-- A poll that read false. -/
def checkP (s : RState) : RState := { s with flag := false, polls := s.polls + 1 }

/-- Pure companion of `waitLoop`. -/
def waitP : Nat → RState → RState
  | 0, s => s
  | k + 1, s => waitP k (flipW (checkP s))

/-- Pure companion of `shapeHold`. -/
def holdP (ctx : Ctx) : Int → Nat → Bool → RState → Bool × RState
  | _, 0, bs, s => (bs, s)
  | f, k + 1, bs, s =>
    let s := checkP s
    let (bs', s') :=
      if f = ctx.nStartBeep then (true, callOnFlip (.stopF "start_imagine") s)
      else (bs, s)
    holdP ctx (f + 1) k bs' (flipW (addT (.drawIt ctx.shapeName) s'))

/-- Pure companion of `trainingRep`. -/
def trainingRepP (ctx : Ctx) (i : Nat) (s : RState) : RState :=
  let s := checkP s
  let s := addT (.phaseIt .trainingShape ctx.tShape) s
  let s := addT (.stimIt ("shape:" ++ ctx.shapeName)) s
  let s := addT (.drawIt ctx.shapeName) s
  let s := callOnFlip (.playF "start_imagine") s
  let s := callOnFlip (.logF "TRAINING_START_BEEP" ("flash_" ++ toString (i + 1))) s
  let s := callOnFlip (.logF "TRAINING_SHAPE_ON" ("flash_" ++ toString (i + 1))) s
  let s := flipW s
  let s := beepOp (totalBeeps ctx) s
  let r := holdP ctx 1 (ctx.nShape - 1).toNat false s
  let s := if r.1 then r.2 else stopDirect "start_imagine" r.2
  let s := addT (.phaseIt .trainingBlank ctx.endDur) s
  let s := callOnFlip (.playF "end_imagine") s
  let s := callOnFlip (.logF "TRAINING_END_BEEP" ("flash_" ++ toString (i + 1))) s
  let s := callOnFlip (.logF "TRAINING_SHAPE_OFF" ("flash_" ++ toString (i + 1))) s
  let s := flipW s
  let s := beepOp (totalBeeps ctx) s
  let s := addT (.stimIt "blank") s
  let s := waitP (ctx.nEndBeep - 1).toNat s
  let s := callOnFlip (.stopF "end_imagine") s
  let s := flipW s
  let s := addT (.phaseIt .trainingBlank ctx.tBlank) s
  waitP (ctx.nBlank - 1).toNat s

/-- Pure companion of `loopU`. -/
def loopP (bodyP : Nat → RState → RState) : Nat → Nat → RState → RState
  | _, 0, s => s
  | i, k + 1, s => loopP bodyP (i + 1) k (bodyP i s)

/-- Pure companion of `delaySeg`. -/
def delaySegP (ctx : Ctx) (s : RState) : RState :=
  if 0 < ctx.nTrainToMeasDelay then
    let s := checkP s
    let s := addT (.phaseIt .interTrial ctx.trainToMeas) s
    let s := addT (.stimIt "blank") s
    waitP ctx.nTrainToMeasDelay.toNat s
  else s

/-- Pure companion of `instructionSeg`. -/
def instructionSegP (ctx : Ctx) (s : RState) : RState :=
  let s := checkP s
  let s := addT (.phaseIt .instructionCloseEyes 5) s
  let s := addT (.stimIt "instruction:close_eyes") s
  let s := addT (.instrIt "close_your_eyes") s
  let s := logDirect "INSTRUCTION_CLOSE_EYES" "" s
  let s := addT (.phaseIt .instructionWait 5) s
  let s := waitP ctx.nCloseEyesWait.toNat s
  let s := addT (.phaseIt .instructionStarting 2) s
  let s := addT (.stimIt "instruction:starting") s
  let s := addT (.instrIt "starting") s
  let s := logDirect "INSTRUCTION_STARTING" "" s
  let s := addT (.phaseIt .instructionReady 2) s
  waitP ctx.nStartingWait.toNat s

/-- Pure companion of `measPrelude`. -/
def measPreludeP (s : RState) : RState :=
  let s := checkP s
  let s := addT (.stimIt "recording") s
  { s with totalFrames := 0 }

/-- Pure companion of `runSteps` along its completing path: with no
abort and `imagination_cycles = 0` the measurement cycle loop body never
runs, and `run` falls through from the measurement prelude straight to
the post-measurement segment. -/
def runStepsP (ctx : Ctx) (s : RState) : RState :=
  postSeg ctx
    (measPreludeP
      (instructionSegP ctx
        (delaySegP ctx
          (loopP (trainingRepP ctx) 0 ctx.reps
            (logDirect "TRIAL_START" "" s)))))

/-- No abort was requested before the run, and none will be during it. -/
def FlagFree (s : RState) : Prop :=
  s.flag = false ∧ ∀ n, s.sched n = false

/-! ## Closed-form traces -/

/-- Trace of a `k`-frame wait loop that is not aborted. -/
def waitT (k : Nat) : List TraceItem := List.replicate k .flipIt

/-- Trace contributed by the shape-hold loop starting at Python loop
variable `f` with `k` iterations left. -/
def holdT (ctx : Ctx) : Int → Nat → List TraceItem
  | _, 0 => []
  | f, k + 1 =>
    (if f = ctx.nStartBeep then
      [.drawIt ctx.shapeName, .audioIt false "start_imagine" true, .flipIt]
     else [.drawIt ctx.shapeName, .flipIt]) ++ holdT ctx (f + 1) k

/-- Final value of the `beep_stopped` local of the shape-hold loop. -/
def holdBs (ctx : Ctx) : Int → Nat → Bool → Bool
  | _, 0, bs => bs
  | f, k + 1, bs =>
    holdBs ctx (f + 1) k (if f = ctx.nStartBeep then true else bs)

/-- Trace of one non-aborted training repetition entered with
`beep_counter = b`. -/
def trainT (ctx : Ctx) (i b : Nat) : List TraceItem :=
  [.phaseIt .trainingShape ctx.tShape,
   .stimIt ("shape:" ++ ctx.shapeName),
   .drawIt ctx.shapeName,
   .audioIt true "start_imagine" true,
   .logIt "TRAINING_START_BEEP" ("flash_" ++ toString (i + 1)),
   .logIt "TRAINING_SHAPE_ON" ("flash_" ++ toString (i + 1)),
   .flipIt,
   .beepIt (b + 1) (totalBeeps ctx)]
  ++ holdT ctx 1 (ctx.nShape - 1).toNat
  ++ (if holdBs ctx 1 (ctx.nShape - 1).toNat false then []
      else [.audioIt false "start_imagine" false])
  ++ [.phaseIt .trainingBlank ctx.endDur,
      .audioIt true "end_imagine" true,
      .logIt "TRAINING_END_BEEP" ("flash_" ++ toString (i + 1)),
      .logIt "TRAINING_SHAPE_OFF" ("flash_" ++ toString (i + 1)),
      .flipIt,
      .beepIt (b + 2) (totalBeeps ctx),
      .stimIt "blank"]
  ++ waitT (ctx.nEndBeep - 1).toNat
  ++ [.audioIt false "end_imagine" true, .flipIt,
      .phaseIt .trainingBlank ctx.tBlank]
  ++ waitT (ctx.nBlank - 1).toNat

/-- Trace of the non-aborted training→measurement delay. -/
def delayT (ctx : Ctx) : List TraceItem :=
  if 0 < ctx.nTrainToMeasDelay then
    [.phaseIt .interTrial ctx.trainToMeas, .stimIt "blank"]
    ++ waitT ctx.nTrainToMeasDelay.toNat
  else []

/-- Trace of the non-aborted instruction sequence. -/
def instrT (ctx : Ctx) : List TraceItem :=
  [.phaseIt .instructionCloseEyes 5, .stimIt "instruction:close_eyes",
   .instrIt "close_your_eyes", .logIt "INSTRUCTION_CLOSE_EYES" "",
   .phaseIt .instructionWait 5]
  ++ waitT ctx.nCloseEyesWait.toNat
  ++ [.phaseIt .instructionStarting 2, .stimIt "instruction:starting",
      .instrIt "starting", .logIt "INSTRUCTION_STARTING" "",
      .phaseIt .instructionReady 2]
  ++ waitT ctx.nStartingWait.toNat

/-- The post-measurement spoken cue (`trial_protocol.py:409-424`). -/
def postName (ctx : Ctx) : String :=
  if !ctx.isLastShape then "open_your_eyes"
  else if ctx.isLastQueueItem then "experiment_completed"
  else "next_participant_please"

/-- The post-measurement `precise_sleep` duration. -/
def postSleep (ctx : Ctx) : ℚ :=
  if !ctx.isLastShape then 5
  else if ctx.isLastQueueItem then
    max 5 (ctx.instrDur "experiment_completed" + 1)
  else 5

/-- The event type logged with the post-measurement cue. -/
def postLogType (ctx : Ctx) : String :=
  if !ctx.isLastShape then "INSTRUCTION_OPEN_EYES"
  else if ctx.isLastQueueItem then "INSTRUCTION_COMPLETED"
  else "INSTRUCTION_NEXT_PARTICIPANT"

/-- The operator-mirror string shown with the post-measurement cue. -/
def postStim (ctx : Ctx) : String :=
  if !ctx.isLastShape then "instruction:open_your_eyes"
  else if ctx.isLastQueueItem then "instruction:experiment_completed"
  else "instruction:next_participant"

/-- Trace of the post-measurement segment entered with
`total_frames_recorded = tf`. -/
def postT (ctx : Ctx) (tf : Nat) : List TraceItem :=
  [.phaseIt .instructionPost 5,
   .stimIt (postStim ctx), .instrIt (postName ctx),
   .logIt (postLogType ctx) "", .sleepIt (postSleep ctx),
   .stimIt "idle",
   .logIt "TRIAL_END"
     ("total_frames=" ++ toString tf ++ " cycles=" ++ toString ctx.cycles)]

/-- Closed-form trace of a completed run.  Completion is only reachable
with `imagination_cycles = 0` (a first cycle iteration either aborts or
raises), so the trace has no measurement-cycle part and the trial-end row
reports zero recorded frames. -/
def runT (ctx : Ctx) : List TraceItem :=
  [.logIt "TRIAL_START" ""]
  ++ ((List.range ctx.reps).map (fun j => trainT ctx j (2 * j))).flatten
  ++ delayT ctx
  ++ instrT ctx
  ++ [.stimIt "recording"]
  ++ postT ctx 0

/-- Bookkeeping relation between the entry and exit state of a fragment
that fell through: the trace grew by `t`, the on-flip queue is drained, the
oracle is untouched, and the beep / camera-start / total-frame counters grew
by `db` / `dc` / `dtf`. -/
def Tracks (s s' : RState) (t : List TraceItem) (db dc dtf : Nat) : Prop :=
  s'.trace = s.trace ++ t ∧ s'.pending = [] ∧ s'.sched = s.sched ∧
  s'.beepCount = s.beepCount + db ∧ s'.camStarts = s.camStarts + dc ∧
  s'.totalFrames = s.totalFrames + dtf

/-- Event types logged by one completed training repetition. -/
def trainEvents : List String :=
  ["TRAINING_START_BEEP", "TRAINING_SHAPE_ON",
   "TRAINING_END_BEEP", "TRAINING_SHAPE_OFF"]

/-- Event types the spec attributes to one measurement cycle (used below
to read the C4 spec sentence literally; the code can never log them, the
first cycle iteration raising before its first log row). -/
def cycleEvents : List String :=
  ["IMAGINATION_START_BEEP", "RECORDING_START",
   "RECORDING_STOP", "IMAGINATION_END_BEEP"]

/-- The exact event-type sequence of a completed trial, as the code emits
it (completion entails `imagination_cycles = 0`, so there are no per-cycle
rows). -/
def canonicalEvents (ctx : Ctx) : List String :=
  ["TRIAL_START"]
  ++ (List.replicate ctx.reps trainEvents).flatten
  ++ ["INSTRUCTION_CLOSE_EYES", "INSTRUCTION_STARTING"]
  ++ [postLogType ctx, "TRIAL_END"]

/-- The event-type sequence claimed by the spec sentence behind C4, read
literally: training beep markers, the pre-measurement instruction markers,
the per-cycle markers, and a terminal trial-end marker — nothing else. -/
def c4ClaimSeq (reps cycles : Nat) : List String :=
  (List.replicate reps ["TRAINING_START_BEEP", "TRAINING_END_BEEP"]).flatten
  ++ ["INSTRUCTION_CLOSE_EYES", "INSTRUCTION_STARTING"]
  ++ (List.replicate cycles cycleEvents).flatten
  ++ ["TRIAL_END"]

/-- The exact phase-tag sequence of a completed trial (no measurement
tags: a measurement phase callback is never issued, its argument raising
first). -/
def canonicalPhases (ctx : Ctx) : List RunPhase :=
  (List.replicate ctx.reps
    [RunPhase.trainingShape, .trainingBlank, .trainingBlank]).flatten
  ++ (if 0 < ctx.nTrainToMeasDelay then [RunPhase.interTrial] else [])
  ++ [RunPhase.instructionCloseEyes, .instructionWait,
      .instructionStarting, .instructionReady]
  ++ [RunPhase.instructionPost]

/-! ## The webcam recorder (`src/hardware/camera_webcam.py`)

The background record thread is sequentialized: `captured` stands for the
number of frames the thread wrote between `start_recording` and
`stop_recording`.  `infoLogs` counts the backend's own driver-log lines
("recording started"/"recording stopped"), emitted once per actual
recording by `_record_loop`. -/

/-- Observable state of a `WebcamCamera`. -/
structure WebcamState where
  recording : Bool
  framesCaptured : Nat
  infoLogs : Nat
  deriving DecidableEq, Repr

/-- A freshly constructed `WebcamCamera` (`camera_webcam.py:23-34`). -/
def webcamInit : WebcamState :=
  { recording := false, framesCaptured := 0, infoLogs := 0 }

/-- `WebcamCamera.start_recording` (`camera_webcam.py:99-110`): a no-op if
already recording, else resets the frame counter and starts the record
thread (which logs one "started" line). -/
def webcamStart (st : WebcamState) : WebcamState :=
  if st.recording then st
  else { recording := true, framesCaptured := 0, infoLogs := st.infoLogs + 1 }

/-- `WebcamCamera.stop_recording` (`camera_webcam.py:151-155`): sets the
stop event and joins the record thread.  If a recording is active the
thread's `finally` block clears the recording flag and logs one "stopped"
line (`camera_webcam.py:144-149`)
and `_frames_captured` holds the frames it wrote; if no recording is
active, joining is an immediate no-op and the call just returns the current
`_frames_captured` (0 if none ever ran). -/
def webcamStop (captured : Nat) (st : WebcamState) : Nat × WebcamState :=
  if st.recording then
    (captured,
     { recording := false, framesCaptured := captured,
       infoLogs := st.infoLogs + 1 })
  else (st.framesCaptured, st)

/-- Modelled from the spec: the Audio Cue Player (`audio/audio_manager.py`
is not under `src/`).  Per spec §6 it plays/stops named cues;
`audioStopSpec` removes a cue from the playing set, so stopping a cue that
is not playing leaves the set unchanged. -/
def audioStopSpec (name : String) (playing : List String) : List String :=
  playing.filter (fun m => m != name)

/-! ## The event logger (`src/data/event_logger.py`)

`fmt6`/`fmt3` abstract Python's `f"{x:.6f}"`/`f"{x:.3f}"` float formatting;
`now` is the `time.perf_counter()` reading inside `log`.  `flushedRows` is
the number of rows guaranteed on disk (the file is flushed before `log`
returns). -/

/-- The CSV header (`event_logger.py:20-23`). -/
def eventLoggerHeader : List String :=
  ["timestamp_s", "elapsed_ms", "event_type",
   "subject", "shape", "rep", "detail"]

/-- Observable state of an `EventLogger`. -/
structure EventLog where
  startTime : Option ℚ
  rows : List (List String)
  flushedRows : Nat

/-- `EventLogger.__init__` (`event_logger.py:25-32`): writes and flushes
the header row. -/
def eventLogInit : EventLog :=
  { startTime := none, rows := [eventLoggerHeader], flushedRows := 1 }

/-- `EventLogger.start_clock` (`event_logger.py:34-36`). -/
def eventLogStartClock (now : ℚ) (st : EventLog) : EventLog :=
  { st with startTime := some now }

/-- The `elapsed` computation of `EventLogger.log` (`event_logger.py:48`).
Python's `if self._start_time:` is falsy for both `None` and `0.0`. -/
def eventLogElapsed (startTime : Option ℚ) (now : ℚ) : ℚ :=
  match startTime with
  | some t => if t = 0 then 0 else (now - t) * 1000
  | none => 0

/-- The row written by one `EventLogger.log` call
(`event_logger.py:50-58`). -/
def eventLogRow (fmt6 fmt3 : ℚ → String) (now : ℚ) (st : EventLog)
    (etype subject shape rep detail : String) : List String :=
  [fmt6 now, fmt3 (eventLogElapsed st.startTime now),
   etype, subject, shape, rep, detail]

/-- `EventLogger.log` (`event_logger.py:38-59`): append one row and flush
within the same call. -/
def eventLogLog (fmt6 fmt3 : ℚ → String) (now : ℚ) (st : EventLog)
    (etype subject shape rep detail : String) : EventLog :=
  { st with
    rows := st.rows ++ [eventLogRow fmt6 fmt3 now st etype subject shape rep detail],
    flushedRows := st.rows.length + 1 }

/-! ## Concrete instances for witnesses and counterexamples -/

/-- A small concrete run context: 1 training repetition, 1 measurement
cycle, 2 frames of shape hold after onset, 1-frame beeps and waits. -/
def ctxC : Ctx :=
  { tShape := 1, tBlank := 1/2, recDelay := 1, imagDur := 10, interDelay := 2,
    trainToMeas := 0, startDur := 1/2, endDur := 1/2, reps := 1, cycles := 1,
    nShape := 3, nBlank := 1, nStartBeep := 1, nEndBeep := 1,
    nRecordingDelay := 1, nInterDelay := 1, nRecordingFrames := 1,
    nCloseEyesWait := 0, nStartingWait := 0, nTrainToMeasDelay := 0,
    frameDuration := 1, shapeName := "circle", subject := "s1", rep := 1,
    videoPath := fun k => "cycle" ++ toString k ++ ".avi",
    isLastShape := false, isLastQueueItem := false,
    instrDur := fun _ => 3, recFrames := fun _ => 10, fps := 500 }

/-- The same concrete context with `imagination_cycles = 0`: the only
shape of context whose run can complete. -/
def ctx0 : Ctx :=
  { ctxC with cycles := 0 }

/-- An abort oracle whose first true read is the 6th poll of `run ctxC`
(index 5), which is the cycle-top abort check of measurement cycle 1. -/
def schedC2 : Nat → Bool := fun n => decide (5 ≤ n)

/-- `m` plain shape-hold frames: draw the shape, flip, no beep stop. -/
def Jt (ctx : Ctx) (m : Nat) : List TraceItem :=
  (List.replicate m [TraceItem.drawIt ctx.shapeName, .flipIt]).flatten

/-- The audio/visual projection of `m` plain shape-hold frames. -/
def Ja (m : Nat) : List AVIt :=
  (List.replicate m [AVIt.drawA, .flipA]).flatten

/-- Audio/visual events of a training repetition after the shape-hold loop:
the end beep starts on a flip, rings out, is stopped on a flip, and the
blank gap is held. -/
def avTrainTail (ctx : Ctx) : List AVIt :=
  [AVIt.playA "end_imagine" true, .flipA]
  ++ List.replicate (ctx.nEndBeep - 1).toNat AVIt.flipA
  ++ [AVIt.stopA "end_imagine" true, .flipA]
  ++ List.replicate (ctx.nBlank - 1).toNat AVIt.flipA

/-- A concrete `duration_to_frames`: the numerator of the rational. -/
def d2fW : ℚ → Int := fun q => q.num

/-- Concrete timing settings whose recording window is positive. -/
def tW : TimingSettings :=
  { trainingShapeDuration := 1, trainingBlankDuration := 1,
    recordingDelay := 0, imaginationDuration := 1,
    interImaginationDelay := 1, trainingToMeasurementDelay := 1,
    trainingRepetitions := 1, imaginationCycles := 1 }

/-- Concrete timing settings whose recording window is non-positive. -/
def tW2 : TimingSettings :=
  { tW with imaginationDuration := 0 }

/-- Concrete audio settings for the construction witnesses. -/
def aW : AudioSettings :=
  { startImagineFreq := 1, endImagineFreq := 1,
    startImagineDuration := 0, endImagineDuration := 1 }

/-! ## Infrastructure lemmas -/

theorem bindS_eq_cont {α β : Type} {x : StepT α} {f : α → RState → StepT β}
    {b : β} {s' : RState} :
    bindS x f = .cont b s' ↔ ∃ a s0, x = .cont a s0 ∧ f a s0 = .cont b s' := by
  cases x with
  | cont a s0 =>
      constructor
      · intro h; exact ⟨a, s0, rfl, h⟩
      · rintro ⟨a', s0', he, h⟩
        cases he
        exact h
  | halt site s0 => simp [bindS]

theorem bindS_eq_halt {α β : Type} {x : StepT α} {f : α → RState → StepT β}
    {site : AbortSite} {s' : RState} :
    bindS x f = .halt site s' ↔
      x = .halt site s' ∨ ∃ a s0, x = .cont a s0 ∧ f a s0 = .halt site s' := by
  cases x with
  | cont a s0 =>
      constructor
      · intro h; exact .inr ⟨a, s0, rfl, h⟩
      · rintro (he | ⟨a', s0', he, h⟩)
        · cases he
        · cases he
          exact h
  | halt st s0 => simp [bindS]

theorem Tracks.trans {s1 s2 s3 : RState} {t1 t2 : List TraceItem}
    {a1 a2 b1 b2 c1 c2 : Nat} (h1 : Tracks s1 s2 t1 a1 b1 c1)
    (h2 : Tracks s2 s3 t2 a2 b2 c2) :
    Tracks s1 s3 (t1 ++ t2) (a1 + a2) (b1 + b2) (c1 + c2) := by
  obtain ⟨e1, p1, d1, f1, g1, i1⟩ := h1
  obtain ⟨e2, p2, d2, f2, g2, i2⟩ := h2
  refine ⟨?_, p2, d2.trans d1, ?_, ?_, ?_⟩
  · rw [e2, e1, List.append_assoc]
  · rw [f2, f1]; omega
  · rw [g2, g1]; omega
  · rw [i2, i1]; omega

theorem Tracks.nil {s : RState} (h : s.pending = []) : Tracks s s [] 0 0 0 :=
  ⟨by simp, h, rfl, rfl, rfl, rfl⟩

theorem tracksAddT {s : RState} (x : TraceItem) (h : s.pending = []) :
    Tracks s (addT x s) [x] 0 0 0 := by
  simp [Tracks, addT, h]

theorem tracksCheckP {s : RState} (h : s.pending = []) :
    Tracks s (checkP s) [] 0 0 0 := by
  simp [Tracks, checkP, h]

theorem tracksBeepOp {s : RState} (tot : Nat) (h : s.pending = []) :
    Tracks s (beepOp tot s) [.beepIt (s.beepCount + 1) tot] 1 0 0 := by
  simp [Tracks, beepOp, h]

theorem tracksCamStart {s : RState} (h : s.pending = []) :
    Tracks s (camStartOp s) [.camIt true] 0 1 0 := by
  simp [Tracks, camStartOp, h]

theorem tracksFlip1 {s : RState} (a : FAct) (h : s.pending = []) :
    Tracks s (flipW (callOnFlip a s)) [a.run, .flipIt] 0 0 0 := by
  simp [Tracks, flipW, callOnFlip, h]

theorem tracksFlip2 {s : RState} (a b : FAct) (h : s.pending = []) :
    Tracks s (flipW (callOnFlip b (callOnFlip a s)))
      [a.run, b.run, .flipIt] 0 0 0 := by
  simp [Tracks, flipW, callOnFlip, h]

theorem tracksFlip3 {s : RState} (a b c : FAct) (h : s.pending = []) :
    Tracks s (flipW (callOnFlip c (callOnFlip b (callOnFlip a s))))
      [a.run, b.run, c.run, .flipIt] 0 0 0 := by
  simp [Tracks, flipW, callOnFlip, h]

theorem tracksDrawFlip {s : RState} (a : FAct) (d : TraceItem)
    (h : s.pending = []) :
    Tracks s (flipW (addT d (callOnFlip a s))) [d, a.run, .flipIt] 0 0 0 := by
  simp [Tracks, flipW, callOnFlip, addT, h]

theorem tracksDrawFlip0 {s : RState} (d : TraceItem) (h : s.pending = []) :
    Tracks s (flipW (addT d s)) [d, .flipIt] 0 0 0 := by
  simp [Tracks, flipW, addT, h]

theorem flagFree_addT {s : RState} {x : TraceItem} (h : FlagFree s) :
    FlagFree (addT x s) := by
  simpa [FlagFree, addT] using h

theorem flagFree_callOnFlip {s : RState} {a : FAct} (h : FlagFree s) :
    FlagFree (callOnFlip a s) := by
  simpa [FlagFree, callOnFlip] using h

theorem flagFree_flipW {s : RState} (h : FlagFree s) : FlagFree (flipW s) := by
  simpa [FlagFree, flipW] using h

theorem flagFree_checkP {s : RState} (h : FlagFree s) : FlagFree (checkP s) := by
  simp [FlagFree, checkP, h.2]

theorem flagFree_beepOp {s : RState} {tot : Nat} (h : FlagFree s) :
    FlagFree (beepOp tot s) := by
  simpa [FlagFree, beepOp] using h

theorem flagFree_camStartOp {s : RState} (h : FlagFree s) :
    FlagFree (camStartOp s) := by
  simpa [FlagFree, camStartOp] using h

theorem flagFree_check_false {s : RState} (h : FlagFree s) :
    (s.flag || s.sched s.polls) = false := by
  simp [h.1, h.2]

/-- Drained on-flip callbacks never contain camera calls. -/
theorem camOf_map_run (l : List FAct) : camOf (l.map FAct.run) = [] := by
  induction l with
  | nil => rfl
  | cons a r ih => cases a <;> simpa [camOf, FAct.run] using ih

theorem camOf_append (l1 l2 : List TraceItem) :
    camOf (l1 ++ l2) = camOf l1 ++ camOf l2 := by
  simp [camOf, List.filterMap_append]

theorem camOf_flipW (s : RState) : camOf (flipW s).trace = camOf s.trace := by
  rw [show (flipW s).trace
        = s.trace ++ s.pending.map FAct.run ++ [.flipIt] from rfl,
     camOf_append, camOf_append, camOf_map_run]
  simp [camOf]

theorem camOf_addT_other {s : RState} {x : TraceItem}
    (h : ∀ b, x ≠ .camIt b) : camOf (addT x s).trace = camOf s.trace := by
  cases x <;> simp_all [addT, camOf_append, camOf]

theorem camOf_stopDirect (n : String) (u : RState) :
    camOf (stopDirect n u).trace = camOf u.trace := by
  simp [stopDirect, addT, camOf_append, camOf]

theorem camOf_camStopOp (u : RState) :
    camOf (camStopOp u).trace = camOf u.trace ++ [false] := by
  simp [camStopOp, addT, camOf_append, camOf]

theorem tracksFlip0 {s : RState} (h : s.pending = []) :
    Tracks s (flipW s) [.flipIt] 0 0 0 := by
  simp [Tracks, flipW, h]

/-! ## Wait loops -/

theorem waitP_out (k : Nat) : ∀ {s : RState}, s.pending = [] →
    Tracks s (waitP k s) (waitT k) 0 0 0 := by
  induction k with
  | zero => intro s h; exact Tracks.nil h
  | succ k ih =>
      intro s h
      have h1 := (tracksCheckP h).trans (tracksFlip0 (tracksCheckP h).2.1)
      have h2 := h1.trans (ih h1.2.1)
      simpa [waitT, List.replicate_succ] using h2

theorem flagFree_waitP {k : Nat} : ∀ {s : RState}, FlagFree s →
    FlagFree (waitP k s) := by
  induction k with
  | zero => intro s h; exact h
  | succ k ih => intro s h; exact ih (flagFree_flipW (flagFree_checkP h))

theorem waitLoop_cont {site : AbortSite} {cl : RState → RState} {k : Nat} :
    ∀ {s s' : RState} {u : Unit},
      waitLoop site cl k s = .cont u s' → s' = waitP k s := by
  induction k with
  | zero =>
      intro s s' u h
      injection h with _ h2
      exact h2.symm
  | succ k ih =>
      intro s s' u h
      rw [waitLoop] at h
      simp only [check] at h
      cases hb : s.flag || s.sched s.polls with
      | true => rw [hb] at h; simp at h
      | false =>
          rw [hb] at h
          simp only [Bool.false_eq_true, if_false] at h
          exact ih h

theorem waitLoop_total {site : AbortSite} {cl : RState → RState} {k : Nat} :
    ∀ {s : RState}, FlagFree s →
      waitLoop site cl k s = .cont () (waitP k s) := by
  induction k with
  | zero => intro s _; rfl
  | succ k ih =>
      intro s h
      rw [waitLoop]
      simp only [check]
      rw [flagFree_check_false h]
      simp only [Bool.false_eq_true, if_false]
      exact ih (flagFree_flipW (flagFree_checkP h))

theorem waitLoop_halt_cam {site : AbortSite} {cl : RState → RState}
    (cc : List Bool) (hcl : ∀ u, camOf (cl u).trace = camOf u.trace ++ cc)
    {k : Nat} : ∀ {s s' : RState} {site' : AbortSite},
      waitLoop site cl k s = .halt site' s' →
      site' = site ∧ camOf s'.trace = camOf s.trace ++ cc := by
  induction k with
  | zero => intro s s' site' h; simp [waitLoop] at h
  | succ k ih =>
      intro s s' site' h
      rw [waitLoop] at h
      simp only [check] at h
      cases hb : s.flag || s.sched s.polls with
      | true =>
          rw [hb] at h
          simp only [if_true] at h
          injection h with h1 h2
          subst h1 h2
          exact ⟨rfl, hcl _⟩
      | false =>
          rw [hb] at h
          simp only [Bool.false_eq_true, if_false] at h
          have := ih h
          rwa [camOf_flipW] at this

/-! ## The shape-hold loop -/

theorem holdP_out (ctx : Ctx) : ∀ (k : Nat) (f : Int) (bs : Bool)
    (s : RState), s.pending = [] →
    Tracks s (holdP ctx f k bs s).2 (holdT ctx f k) 0 0 0 ∧
    (holdP ctx f k bs s).1 = holdBs ctx f k bs := by
  intro k
  induction k with
  | zero => intro f bs s h; exact ⟨Tracks.nil h, rfl⟩
  | succ k ih =>
      intro f bs s h
      by_cases hf : f = ctx.nStartBeep
      · rw [holdP, holdT, holdBs]
        simp only [if_pos hf]
        have h1 := (tracksCheckP h).trans
          (tracksDrawFlip (.stopF "start_imagine") (.drawIt ctx.shapeName)
            (tracksCheckP h).2.1)
        have h2 := h1.trans (ih (f + 1) true _ h1.2.1).1
        refine ⟨?_, (ih (f + 1) true _ h1.2.1).2⟩
        simpa [FAct.run] using h2
      · rw [holdP, holdT, holdBs]
        simp only [if_neg hf]
        have h1 := (tracksCheckP h).trans
          (tracksDrawFlip0 (.drawIt ctx.shapeName) (tracksCheckP h).2.1)
        have h2 := h1.trans (ih (f + 1) bs _ h1.2.1).1
        exact ⟨by simpa using h2, (ih (f + 1) bs _ h1.2.1).2⟩

theorem flagFree_holdP (ctx : Ctx) : ∀ (k : Nat) (f : Int) (bs : Bool)
    (s : RState), FlagFree s → FlagFree (holdP ctx f k bs s).2 := by
  intro k
  induction k with
  | zero => intro f bs s h; exact h
  | succ k ih =>
      intro f bs s h
      rw [holdP]
      by_cases hf : f = ctx.nStartBeep
      · simp only [if_pos hf]
        exact ih _ _ _ (flagFree_flipW (flagFree_addT
          (flagFree_callOnFlip (flagFree_checkP h))))
      · simp only [if_neg hf]
        exact ih _ _ _ (flagFree_flipW (flagFree_addT (flagFree_checkP h)))

theorem shapeHold_cont (ctx : Ctx) : ∀ (k : Nat) (f : Int) (bs : Bool)
    {s s' : RState} {bs' : Bool},
    shapeHold ctx f k bs s = .cont bs' s' →
    bs' = (holdP ctx f k bs s).1 ∧ s' = (holdP ctx f k bs s).2 := by
  intro k
  induction k with
  | zero =>
      intro f bs s s' bs' h
      injection h with h1 h2
      exact ⟨h1.symm, h2.symm⟩
  | succ k ih =>
      intro f bs s s' bs' h
      rw [shapeHold] at h
      simp only [check] at h
      cases hb : s.flag || s.sched s.polls with
      | true => rw [hb] at h; simp at h
      | false =>
          rw [hb] at h
          simp only [Bool.false_eq_true, if_false] at h
          rw [holdP]
          by_cases hf : f = ctx.nStartBeep
          · simp only [if_pos hf] at h ⊢
            exact ih _ _ h
          · simp only [if_neg hf] at h ⊢
            exact ih _ _ h

theorem shapeHold_total (ctx : Ctx) : ∀ (k : Nat) (f : Int) (bs : Bool)
    {s : RState}, FlagFree s →
    shapeHold ctx f k bs s =
      .cont (holdP ctx f k bs s).1 (holdP ctx f k bs s).2 := by
  intro k
  induction k with
  | zero => intro f bs s h; rfl
  | succ k ih =>
      intro f bs s h
      rw [shapeHold]
      simp only [check]
      rw [flagFree_check_false h]
      simp only [Bool.false_eq_true, if_false]
      rw [holdP]
      by_cases hf : f = ctx.nStartBeep
      · simp only [if_pos hf]
        exact ih _ _ (flagFree_flipW (flagFree_addT
          (flagFree_callOnFlip (flagFree_checkP h))))
      · simp only [if_neg hf]
        exact ih _ _ (flagFree_flipW (flagFree_addT (flagFree_checkP h)))

theorem camOf_holdP (ctx : Ctx) : ∀ (k : Nat) (f : Int) (bs : Bool)
    (s : RState), camOf (holdP ctx f k bs s).2.trace = camOf s.trace := by
  intro k
  induction k with
  | zero => intro f bs s; rfl
  | succ k ih =>
      intro f bs s
      rw [holdP]
      by_cases hf : f = ctx.nStartBeep
      · simp only [if_pos hf]
        rw [ih, camOf_flipW]
        exact camOf_addT_other (by intro b hx; cases hx)
      · simp only [if_neg hf]
        rw [ih, camOf_flipW]
        exact camOf_addT_other (by intro b hx; cases hx)

theorem shapeHold_halt_cam (ctx : Ctx) : ∀ (k : Nat) (f : Int) (bs : Bool)
    {s s' : RState} {site : AbortSite},
    shapeHold ctx f k bs s = .halt site s' →
    site = .trainingShapeHold ∧ camOf s'.trace = camOf s.trace := by
  intro k
  induction k with
  | zero => intro f bs s s' site h; simp [shapeHold] at h
  | succ k ih =>
      intro f bs s s' site h
      rw [shapeHold] at h
      simp only [check] at h
      cases hb : s.flag || s.sched s.polls with
      | true =>
          rw [hb] at h
          simp only [if_true] at h
          injection h with h1 h2
          subst h1
          refine ⟨rfl, ?_⟩
          cases bs with
          | false =>
              simp only [Bool.false_eq_true, if_false] at h2
              rw [← h2, camOf_stopDirect]
          | true =>
              simp only [if_true] at h2
              rw [← h2]
      | false =>
          rw [hb] at h
          simp only [Bool.false_eq_true, if_false] at h
          by_cases hf : f = ctx.nStartBeep
          · simp only [if_pos hf] at h
            have := ih _ _ h
            rw [camOf_flipW] at this
            refine ⟨this.1, ?_⟩
            rw [this.2]
            exact camOf_addT_other (by intro b hx; cases hx)
          · simp only [if_neg hf] at h
            have := ih _ _ h
            rw [camOf_flipW] at this
            refine ⟨this.1, ?_⟩
            rw [this.2]
            exact camOf_addT_other (by intro b hx; cases hx)

/-! ## The training repetition -/

/-- The shape-hold loop followed by the `beep_stopped` safety stop
(`trial_protocol.py:199-213`). -/
theorem tracksHoldIf (ctx : Ctx) (u : RState) (hu : u.pending = []) :
    Tracks u
      (if (holdP ctx 1 (ctx.nShape - 1).toNat false u).1 = true then
         (holdP ctx 1 (ctx.nShape - 1).toNat false u).2
       else stopDirect "start_imagine"
         (holdP ctx 1 (ctx.nShape - 1).toNat false u).2)
      (holdT ctx 1 (ctx.nShape - 1).toNat ++
        (if holdBs ctx 1 (ctx.nShape - 1).toNat false = true then []
         else [.audioIt false "start_imagine" false])) 0 0 0 := by
  have hold := holdP_out ctx (ctx.nShape - 1).toNat 1 false u hu
  rw [hold.2]
  cases hb : holdBs ctx 1 (ctx.nShape - 1).toNat false with
  | true => simpa using hold.1
  | false =>
      simpa [stopDirect] using hold.1.trans
        (tracksAddT (.audioIt false "start_imagine" false) hold.1.2.1)

theorem trainingRepP_out (ctx : Ctx) (i : Nat) (s : RState)
    (h : s.pending = []) :
    Tracks s (trainingRepP ctx i s) (trainT ctx i s.beepCount) 2 0 0 := by
  have h0 := tracksCheckP h
  have h1 := h0.trans (tracksAddT (.phaseIt .trainingShape ctx.tShape) h0.2.1)
  have h2 := h1.trans (tracksAddT (.stimIt ("shape:" ++ ctx.shapeName)) h1.2.1)
  have h3 := h2.trans (tracksAddT (.drawIt ctx.shapeName) h2.2.1)
  have h4 := h3.trans (tracksFlip3 (.playF "start_imagine")
    (.logF "TRAINING_START_BEEP" ("flash_" ++ toString (i + 1)))
    (.logF "TRAINING_SHAPE_ON" ("flash_" ++ toString (i + 1))) h3.2.1)
  have h5 := h4.trans (tracksBeepOp (totalBeeps ctx) h4.2.1)
  have h6 := h5.trans (tracksHoldIf ctx _ h5.2.1)
  have h8 := h6.trans (tracksAddT (.phaseIt .trainingBlank ctx.endDur) h6.2.1)
  have h9 := h8.trans (tracksFlip3 (.playF "end_imagine")
    (.logF "TRAINING_END_BEEP" ("flash_" ++ toString (i + 1)))
    (.logF "TRAINING_SHAPE_OFF" ("flash_" ++ toString (i + 1))) h8.2.1)
  have h10 := h9.trans (tracksBeepOp (totalBeeps ctx) h9.2.1)
  have h11 := h10.trans (tracksAddT (.stimIt "blank") h10.2.1)
  have h12 := h11.trans (waitP_out (ctx.nEndBeep - 1).toNat h11.2.1)
  have h13 := h12.trans (tracksFlip1 (.stopF "end_imagine") h12.2.1)
  have h14 := h13.trans (tracksAddT (.phaseIt .trainingBlank ctx.tBlank) h13.2.1)
  have h15 := h14.trans (waitP_out (ctx.nBlank - 1).toNat h14.2.1)
  simp only [trainingRepP]
  refine ⟨?_, h15.2.1, h15.2.2.1, ?_, ?_, ?_⟩
  · rw [h15.1]
    congr 1
    simp only [trainT, FAct.run, List.append_assoc, List.nil_append,
      List.cons_append, List.singleton_append]
    rw [h4.2.2.2.1, h9.2.2.2.1]
  · rw [h15.2.2.2.1]
  · rw [h15.2.2.2.2.1]
  · rw [h15.2.2.2.2.2]

theorem flagFree_stopDirect {s : RState} {n : String} (h : FlagFree s) :
    FlagFree (stopDirect n s) := flagFree_addT h

theorem flagFree_logDirect {s : RState} {e d : String} (h : FlagFree s) :
    FlagFree (logDirect e d s) := flagFree_addT h

theorem flagFree_camStopOp {s : RState} (h : FlagFree s) :
    FlagFree (camStopOp s) := flagFree_addT h

theorem bindS_cont_of {α β : Type} {x : StepT α} {f : α → RState → StepT β}
    {a : α} {s1 : RState} (hx : x = .cont a s1) {b : β} {s2 : RState}
    (hf : f a s1 = .cont b s2) : bindS x f = .cont b s2 := by
  rw [hx]
  simpa [bindS] using hf

theorem trainingRep_cont (ctx : Ctx) (i : Nat) {s s' : RState} {u : Unit}
    (h : trainingRep ctx i s = .cont u s') : s' = trainingRepP ctx i s := by
  rw [trainingRep] at h
  simp only [check] at h
  cases hb : s.flag || s.sched s.polls with
  | true => rw [hb] at h; simp at h
  | false =>
      rw [hb] at h
      simp only [Bool.false_eq_true, if_false] at h
      rw [bindS_eq_cont] at h
      obtain ⟨bs, s0, hHold, hRest⟩ := h
      obtain ⟨hbs, hs0⟩ := shapeHold_cont ctx _ 1 false hHold
      subst hbs
      subst hs0
      rw [bindS_eq_cont] at hRest
      obtain ⟨u1, s1, hW1, hRest2⟩ := hRest
      have hs1 := waitLoop_cont hW1
      subst hs1
      have hs' := waitLoop_cont hRest2
      rw [hs']
      rfl

theorem trainingRep_total (ctx : Ctx) (i : Nat) {s : RState}
    (h : FlagFree s) :
    trainingRep ctx i s = .cont () (trainingRepP ctx i s) := by
  rw [trainingRep]
  simp only [check]
  rw [flagFree_check_false h]
  simp only [Bool.false_eq_true, if_false]
  refine bindS_cont_of (shapeHold_total ctx _ 1 false ?h1) ?r1
  case h1 =>
    exact flagFree_beepOp (flagFree_flipW (flagFree_callOnFlip
      (flagFree_callOnFlip (flagFree_callOnFlip (flagFree_addT
        (flagFree_addT (flagFree_addT (flagFree_checkP h))))))))
  case r1 =>
    refine bindS_cont_of (waitLoop_total ?h2) ?r2
    case h2 =>
      refine flagFree_addT (flagFree_beepOp (flagFree_flipW
        (flagFree_callOnFlip (flagFree_callOnFlip (flagFree_callOnFlip
          (flagFree_addT ?h3))))))
      split
      · exact flagFree_holdP ctx _ _ _ _ (flagFree_beepOp (flagFree_flipW
          (flagFree_callOnFlip (flagFree_callOnFlip (flagFree_callOnFlip
            (flagFree_addT (flagFree_addT (flagFree_addT
              (flagFree_checkP h)))))))))
      · exact flagFree_stopDirect (flagFree_holdP ctx _ _ _ _
          (flagFree_beepOp (flagFree_flipW (flagFree_callOnFlip
            (flagFree_callOnFlip (flagFree_callOnFlip (flagFree_addT
              (flagFree_addT (flagFree_addT (flagFree_checkP h))))))))))
    case r2 =>
      refine waitLoop_total (flagFree_addT (flagFree_flipW (flagFree_callOnFlip
        (flagFree_waitP (flagFree_addT (flagFree_beepOp (flagFree_flipW
          (flagFree_callOnFlip (flagFree_callOnFlip (flagFree_callOnFlip
            (flagFree_addT ?h4)))))))))))
      split
      · exact flagFree_holdP ctx _ _ _ _ (flagFree_beepOp (flagFree_flipW
          (flagFree_callOnFlip (flagFree_callOnFlip (flagFree_callOnFlip
            (flagFree_addT (flagFree_addT (flagFree_addT
              (flagFree_checkP h)))))))))
      · exact flagFree_stopDirect (flagFree_holdP ctx _ _ _ _ (flagFree_beepOp
          (flagFree_flipW (flagFree_callOnFlip (flagFree_callOnFlip
            (flagFree_callOnFlip (flagFree_addT (flagFree_addT (flagFree_addT
              (flagFree_checkP h))))))))))

/-! ## Camera-projection computation -/

@[simp] theorem camOf_nil : camOf [] = [] := rfl

@[simp] theorem camOf_addT_phase (s : RState) (t : RunPhase) (q : ℚ) :
    camOf (addT (.phaseIt t q) s).trace = camOf s.trace := by
  simp [addT, camOf_append, camOf]

@[simp] theorem camOf_addT_stim (s : RState) (x : String) :
    camOf (addT (.stimIt x) s).trace = camOf s.trace := by
  simp [addT, camOf_append, camOf]

@[simp] theorem camOf_addT_draw (s : RState) (x : String) :
    camOf (addT (.drawIt x) s).trace = camOf s.trace := by
  simp [addT, camOf_append, camOf]

@[simp] theorem camOf_addT_audio (s : RState) (p : Bool) (n : String)
    (v : Bool) : camOf (addT (.audioIt p n v) s).trace = camOf s.trace := by
  simp [addT, camOf_append, camOf]

@[simp] theorem camOf_addT_log (s : RState) (e d : String) :
    camOf (addT (.logIt e d) s).trace = camOf s.trace := by
  simp [addT, camOf_append, camOf]

@[simp] theorem camOf_addT_instr (s : RState) (n : String) :
    camOf (addT (.instrIt n) s).trace = camOf s.trace := by
  simp [addT, camOf_append, camOf]

@[simp] theorem camOf_addT_sleep (s : RState) (q : ℚ) :
    camOf (addT (.sleepIt q) s).trace = camOf s.trace := by
  simp [addT, camOf_append, camOf]

@[simp] theorem camOf_addT_cam (s : RState) (b : Bool) :
    camOf (addT (.camIt b) s).trace = camOf s.trace ++ [b] := by
  simp [addT, camOf_append, camOf]

@[simp] theorem camOf_flipW' (s : RState) :
    camOf (flipW s).trace = camOf s.trace := camOf_flipW s

@[simp] theorem camOf_callOnFlip (s : RState) (a : FAct) :
    camOf (callOnFlip a s).trace = camOf s.trace := rfl

@[simp] theorem camOf_checkP (s : RState) :
    camOf (checkP s).trace = camOf s.trace := rfl

@[simp] theorem camOf_beepOp (s : RState) (tot : Nat) :
    camOf (beepOp tot s).trace = camOf s.trace := by
  simp [beepOp, camOf_append, camOf]

@[simp] theorem camOf_camStartOp (s : RState) :
    camOf (camStartOp s).trace = camOf s.trace ++ [true] := by
  simp [camStartOp, camOf_append, camOf]

@[simp] theorem camOf_camStopOp' (s : RState) :
    camOf (camStopOp s).trace = camOf s.trace ++ [false] := camOf_camStopOp s

@[simp] theorem camOf_stopDirect' (s : RState) (n : String) :
    camOf (stopDirect n s).trace = camOf s.trace := camOf_stopDirect n s

@[simp] theorem camOf_logDirect (s : RState) (e d : String) :
    camOf (logDirect e d s).trace = camOf s.trace := by
  simp [logDirect]

@[simp] theorem camOf_waitP (k : Nat) : ∀ (s : RState),
    camOf (waitP k s).trace = camOf s.trace := by
  induction k with
  | zero => intro s; rfl
  | succ k ih => intro s; rw [waitP]; rw [ih]; simp

@[simp] theorem camOf_holdP' (ctx : Ctx) (k : Nat) (f : Int) (bs : Bool)
    (s : RState) : camOf (holdP ctx f k bs s).2.trace = camOf s.trace :=
  camOf_holdP ctx k f bs s

theorem camOf_trainingRepP (ctx : Ctx) (i : Nat) (s : RState) :
    camOf (trainingRepP ctx i s).trace = camOf s.trace := by
  rw [trainingRepP]
  split <;> simp

/-! ## Generic loops -/

theorem loopU_cont {body : Nat → RState → StepT Unit}
    {bodyP : Nat → RState → RState}
    (hb : ∀ (j : Nat) (s s' : RState) (u : Unit),
      body j s = .cont u s' → s' = bodyP j s) :
    ∀ (k i : Nat) {s s' : RState} {u : Unit},
      loopU body i k s = .cont u s' → s' = loopP bodyP i k s := by
  intro k
  induction k with
  | zero =>
      intro i s s' u h
      injection h with _ h2
      exact h2.symm
  | succ k ih =>
      intro i s s' u h
      rw [loopU] at h
      rw [bindS_eq_cont] at h
      obtain ⟨u0, s0, hBody, hRest⟩ := h
      have := hb i s s0 u0 hBody
      subst this
      rw [loopP]
      exact ih _ hRest

theorem loopU_total {body : Nat → RState → StepT Unit}
    {bodyP : Nat → RState → RState}
    (hb : ∀ (j : Nat) (s : RState), FlagFree s →
      body j s = .cont () (bodyP j s))
    (hp : ∀ (j : Nat) (s : RState), FlagFree s → FlagFree (bodyP j s)) :
    ∀ (k i : Nat) {s : RState}, FlagFree s →
      loopU body i k s = .cont () (loopP bodyP i k s) := by
  intro k
  induction k with
  | zero => intro i s _; rfl
  | succ k ih =>
      intro i s h
      rw [loopU, loopP]
      exact bindS_cont_of (hb i s h) (ih _ (hp i s h))

theorem flagFree_loopP {bodyP : Nat → RState → RState}
    (hp : ∀ (j : Nat) (s : RState), FlagFree s → FlagFree (bodyP j s)) :
    ∀ (k i : Nat) {s : RState}, FlagFree s → FlagFree (loopP bodyP i k s) := by
  intro k
  induction k with
  | zero => intro i s h; exact h
  | succ k ih => intro i s h; rw [loopP]; exact ih _ (hp i s h)

theorem loopU_halt_cam {body : Nat → RState → StepT Unit}
    {bodyP : Nat → RState → RState}
    (hb : ∀ (j : Nat) (s s' : RState) (u : Unit),
      body j s = .cont u s' → s' = bodyP j s)
    (hbc : ∀ (j : Nat) (s : RState),
      camOf (bodyP j s).trace = camOf s.trace)
    (hhc : ∀ (j : Nat) (s s' : RState) (site : AbortSite),
      body j s = .halt site s' →
      site ≠ .measImagining ∧ camOf s'.trace = camOf s.trace) :
    ∀ (k i : Nat) {s s' : RState} {site : AbortSite},
      loopU body i k s = .halt site s' →
      site ≠ .measImagining ∧ camOf s'.trace = camOf s.trace := by
  intro k
  induction k with
  | zero => intro i s s' site h; simp [loopU] at h
  | succ k ih =>
      intro i s s' site h
      rw [loopU] at h
      rw [bindS_eq_halt] at h
      rcases h with h | ⟨u0, s0, hBody, hRest⟩
      · exact hhc i s s' site h
      · have := hb i s s0 u0 hBody
        subst this
        have hr := ih _ hRest
        rw [hbc i s] at hr
        exact hr

/-! ## The training loop -/

theorem flagFree_trainingRepP (ctx : Ctx) (i : Nat) {s : RState}
    (h : FlagFree s) : FlagFree (trainingRepP ctx i s) := by
  rw [trainingRepP]
  refine flagFree_waitP (flagFree_addT (flagFree_flipW (flagFree_callOnFlip
    (flagFree_waitP (flagFree_addT (flagFree_beepOp (flagFree_flipW
      (flagFree_callOnFlip (flagFree_callOnFlip (flagFree_callOnFlip
        (flagFree_addT ?h1)))))))))))
  split
  · exact flagFree_holdP ctx _ _ _ _ (flagFree_beepOp (flagFree_flipW
      (flagFree_callOnFlip (flagFree_callOnFlip (flagFree_callOnFlip
        (flagFree_addT (flagFree_addT (flagFree_addT
          (flagFree_checkP h)))))))))
  · exact flagFree_stopDirect (flagFree_holdP ctx _ _ _ _ (flagFree_beepOp
      (flagFree_flipW (flagFree_callOnFlip (flagFree_callOnFlip
        (flagFree_callOnFlip (flagFree_addT (flagFree_addT (flagFree_addT
          (flagFree_checkP h))))))))))

theorem trainingRep_halt_cam (ctx : Ctx) (i : Nat) {s s' : RState}
    {site : AbortSite} (h : trainingRep ctx i s = .halt site s') :
    site ≠ .measImagining ∧ camOf s'.trace = camOf s.trace := by
  rw [trainingRep] at h
  simp only [check] at h
  cases hb : s.flag || s.sched s.polls with
  | true =>
      rw [hb] at h
      simp only [if_true] at h
      injection h with h1 h2
      subst h1 h2
      exact ⟨by simp, rfl⟩
  | false =>
      rw [hb] at h
      simp only [Bool.false_eq_true, if_false] at h
      rw [bindS_eq_halt] at h
      rcases h with h | ⟨bs, s0, hHold, hRest⟩
      · have := shapeHold_halt_cam ctx _ _ _ h
        refine ⟨by rw [this.1]; simp, ?_⟩
        rw [this.2]
        simp
      · obtain ⟨hbs, hs0⟩ := shapeHold_cont ctx _ 1 false hHold
        subst hbs
        subst hs0
        rw [bindS_eq_halt] at hRest
        rcases hRest with hRest | ⟨u1, s1, hW, hRest2⟩
        · have := waitLoop_halt_cam [] (fun u => by simp) hRest
          refine ⟨by rw [this.1]; simp, ?_⟩
          rw [this.2]
          split <;> simp
        · have := waitLoop_cont hW
          subst this
          have := waitLoop_halt_cam [] (fun u => by simp) hRest2
          refine ⟨by rw [this.1]; simp, ?_⟩
          rw [this.2]
          split <;> simp

theorem trainLoopP_out (ctx : Ctx) : ∀ (k i : Nat) (s : RState),
    s.pending = [] →
    Tracks s (loopP (trainingRepP ctx) i k s)
      (((List.range' i k).map
          (fun j => trainT ctx j (s.beepCount + 2 * (j - i)))).flatten)
      (2 * k) 0 0 := by
  intro k
  induction k with
  | zero =>
      intro i s h
      simpa [List.range'] using Tracks.nil h
  | succ k ih =>
      intro i s h
      have h1 := trainingRepP_out ctx i s h
      have h2 := h1.trans (ih (i + 1) _ h1.2.1)
      rw [loopP]
      refine ⟨?_, h2.2.1, h2.2.2.1, ?_, ?_, ?_⟩
      · rw [h2.1]
        congr 1
        rw [List.range'_succ, List.map_cons, List.flatten_cons]
        congr 1
        · rw [Nat.sub_self, Nat.mul_zero, Nat.add_zero]
        · rw [h1.2.2.2.1]
          refine congrArg _ (List.map_congr_left ?_)
          intro j hj
          rw [List.mem_range'_1] at hj
          congr 1
          omega
      · rw [h2.2.2.2.1]; omega
      · rw [h2.2.2.2.2.1]
      · rw [h2.2.2.2.2.2]

/-! ## Delay, instruction and measurement-prelude segments -/

theorem tracksLogDirect {s : RState} (e d : String) (h : s.pending = []) :
    Tracks s (logDirect e d s) [.logIt e d] 0 0 0 := tracksAddT _ h

theorem delaySegP_out (ctx : Ctx) (s : RState) (h : s.pending = []) :
    Tracks s (delaySegP ctx s) (delayT ctx) 0 0 0 := by
  rw [delaySegP, delayT]
  split
  · have h1 := (tracksCheckP h).trans
      (tracksAddT (.phaseIt .interTrial ctx.trainToMeas) (tracksCheckP h).2.1)
    have h2 := h1.trans (tracksAddT (.stimIt "blank") h1.2.1)
    have h3 := h2.trans (waitP_out ctx.nTrainToMeasDelay.toNat h2.2.1)
    simpa using h3
  · exact Tracks.nil h

theorem flagFree_delaySegP (ctx : Ctx) {s : RState} (h : FlagFree s) :
    FlagFree (delaySegP ctx s) := by
  rw [delaySegP]
  split
  · exact flagFree_waitP (flagFree_addT (flagFree_addT (flagFree_checkP h)))
  · exact h

theorem delaySeg_cont (ctx : Ctx) {s s' : RState} {u : Unit}
    (h : delaySeg ctx s = .cont u s') : s' = delaySegP ctx s := by
  rw [delaySeg] at h
  rw [delaySegP]
  split at h
  · simp only [check] at h
    cases hb : s.flag || s.sched s.polls with
    | true => rw [hb] at h; simp at h
    | false =>
        rw [hb] at h
        simp only [Bool.false_eq_true, if_false] at h
        rw [if_pos (by assumption)]
        exact waitLoop_cont h
  · rw [if_neg (by assumption)]
    injection h with _ h2
    exact h2.symm

theorem delaySeg_total (ctx : Ctx) {s : RState} (h : FlagFree s) :
    delaySeg ctx s = .cont () (delaySegP ctx s) := by
  rw [delaySeg, delaySegP]
  split
  · simp only [check]
    rw [flagFree_check_false h]
    simp only [Bool.false_eq_true, if_false]
    exact waitLoop_total (flagFree_addT (flagFree_addT (flagFree_checkP h)))
  · rfl

theorem delaySeg_halt_cam (ctx : Ctx) {s s' : RState} {site : AbortSite}
    (h : delaySeg ctx s = .halt site s') :
    site ≠ .measImagining ∧ camOf s'.trace = camOf s.trace := by
  rw [delaySeg] at h
  split at h
  · simp only [check] at h
    cases hb : s.flag || s.sched s.polls with
    | true =>
        rw [hb] at h
        simp only [if_true] at h
        injection h with h1 h2
        subst h1 h2
        exact ⟨by simp, rfl⟩
    | false =>
        rw [hb] at h
        simp only [Bool.false_eq_true, if_false] at h
        have := waitLoop_halt_cam [] (fun u => by simp) h
        refine ⟨by rw [this.1]; simp, ?_⟩
        rw [this.2]
        simp
  · simp at h

theorem camOf_delaySegP (ctx : Ctx) (s : RState) :
    camOf (delaySegP ctx s).trace = camOf s.trace := by
  rw [delaySegP]
  split <;> simp

theorem instructionSegP_out (ctx : Ctx) (s : RState) (h : s.pending = []) :
    Tracks s (instructionSegP ctx s) (instrT ctx) 0 0 0 := by
  have h1 := (tracksCheckP h).trans
    (tracksAddT (.phaseIt .instructionCloseEyes 5) (tracksCheckP h).2.1)
  have h2 := h1.trans (tracksAddT (.stimIt "instruction:close_eyes") h1.2.1)
  have h3 := h2.trans (tracksAddT (.instrIt "close_your_eyes") h2.2.1)
  have h4 := h3.trans (tracksLogDirect "INSTRUCTION_CLOSE_EYES" "" h3.2.1)
  have h5 := h4.trans (tracksAddT (.phaseIt .instructionWait 5) h4.2.1)
  have h6 := h5.trans (waitP_out ctx.nCloseEyesWait.toNat h5.2.1)
  have h7 := h6.trans (tracksAddT (.phaseIt .instructionStarting 2) h6.2.1)
  have h8 := h7.trans (tracksAddT (.stimIt "instruction:starting") h7.2.1)
  have h9 := h8.trans (tracksAddT (.instrIt "starting") h8.2.1)
  have h10 := h9.trans (tracksLogDirect "INSTRUCTION_STARTING" "" h9.2.1)
  have h11 := h10.trans (tracksAddT (.phaseIt .instructionReady 2) h10.2.1)
  have h12 := h11.trans (waitP_out ctx.nStartingWait.toNat h11.2.1)
  simpa [instructionSegP, instrT] using h12

theorem flagFree_instructionSegP (ctx : Ctx) {s : RState} (h : FlagFree s) :
    FlagFree (instructionSegP ctx s) := by
  rw [instructionSegP]
  exact flagFree_waitP (flagFree_addT (flagFree_logDirect (flagFree_addT
    (flagFree_addT (flagFree_addT (flagFree_waitP (flagFree_addT
      (flagFree_logDirect (flagFree_addT (flagFree_addT (flagFree_addT
        (flagFree_checkP h))))))))))))

theorem instructionSeg_cont (ctx : Ctx) {s s' : RState} {u : Unit}
    (h : instructionSeg ctx s = .cont u s') : s' = instructionSegP ctx s := by
  rw [instructionSeg] at h
  simp only [check] at h
  cases hb : s.flag || s.sched s.polls with
  | true => rw [hb] at h; simp at h
  | false =>
      rw [hb] at h
      simp only [Bool.false_eq_true, if_false] at h
      rw [bindS_eq_cont] at h
      obtain ⟨u1, s1, hW, hRest⟩ := h
      have := waitLoop_cont hW
      subst this
      rw [instructionSegP]
      exact waitLoop_cont hRest

theorem instructionSeg_total (ctx : Ctx) {s : RState} (h : FlagFree s) :
    instructionSeg ctx s = .cont () (instructionSegP ctx s) := by
  rw [instructionSeg]
  simp only [check]
  rw [flagFree_check_false h]
  simp only [Bool.false_eq_true, if_false]
  refine bindS_cont_of (waitLoop_total ?h1) ?r1
  case h1 =>
    exact flagFree_addT (flagFree_logDirect (flagFree_addT (flagFree_addT
      (flagFree_addT (flagFree_checkP h)))))
  case r1 =>
    exact waitLoop_total (flagFree_addT (flagFree_logDirect (flagFree_addT
      (flagFree_addT (flagFree_waitP (flagFree_addT (flagFree_logDirect
        (flagFree_addT (flagFree_addT (flagFree_addT
          (flagFree_checkP h)))))))))))

theorem instructionSeg_halt_cam (ctx : Ctx) {s s' : RState}
    {site : AbortSite} (h : instructionSeg ctx s = .halt site s') :
    site ≠ .measImagining ∧ camOf s'.trace = camOf s.trace := by
  rw [instructionSeg] at h
  simp only [check] at h
  cases hb : s.flag || s.sched s.polls with
  | true =>
      rw [hb] at h
      simp only [if_true] at h
      injection h with h1 h2
      subst h1 h2
      exact ⟨by simp, rfl⟩
  | false =>
      rw [hb] at h
      simp only [Bool.false_eq_true, if_false] at h
      rw [bindS_eq_halt] at h
      rcases h with h | ⟨u1, s1, hW, hRest⟩
      · have := waitLoop_halt_cam [] (fun u => by simp) h
        refine ⟨by rw [this.1]; simp, ?_⟩
        rw [this.2]
        simp
      · have := waitLoop_cont hW
        subst this
        have := waitLoop_halt_cam [] (fun u => by simp) hRest
        refine ⟨by rw [this.1]; simp, ?_⟩
        rw [this.2]
        simp

theorem camOf_instructionSegP (ctx : Ctx) (s : RState) :
    camOf (instructionSegP ctx s).trace = camOf s.trace := by
  rw [instructionSegP]
  simp

theorem measPreludeP_out (s : RState) (h : s.pending = []) :
    (measPreludeP s).trace = s.trace ++ [.stimIt "recording"] ∧
    (measPreludeP s).pending = [] ∧ (measPreludeP s).sched = s.sched ∧
    (measPreludeP s).beepCount = s.beepCount ∧
    (measPreludeP s).camStarts = s.camStarts ∧
    (measPreludeP s).totalFrames = 0 := by
  simp [measPreludeP, addT, checkP, h]

theorem flagFree_measPreludeP {s : RState} (h : FlagFree s) :
    FlagFree (measPreludeP s) := by
  simp [FlagFree, measPreludeP, addT, checkP, h.2]

theorem measPrelude_cont {s s' : RState} {u : Unit}
    (h : measPrelude s = .cont u s') : s' = measPreludeP s := by
  rw [measPrelude] at h
  simp only [check] at h
  cases hb : s.flag || s.sched s.polls with
  | true => rw [hb] at h; simp at h
  | false =>
      rw [hb] at h
      simp only [Bool.false_eq_true, if_false] at h
      injection h with _ h2
      rw [← h2]
      rfl

theorem measPrelude_total {s : RState} (h : FlagFree s) :
    measPrelude s = .cont () (measPreludeP s) := by
  rw [measPrelude]
  simp only [check]
  rw [flagFree_check_false h]
  simp only [Bool.false_eq_true, if_false]
  rfl

theorem measPrelude_halt_cam {s s' : RState} {site : AbortSite}
    (h : measPrelude s = .halt site s') :
    site ≠ .measImagining ∧ camOf s'.trace = camOf s.trace := by
  rw [measPrelude] at h
  simp only [check] at h
  cases hb : s.flag || s.sched s.polls with
  | true =>
      rw [hb] at h
      simp only [if_true] at h
      injection h with h1 h2
      subst h1 h2
      exact ⟨by simp, rfl⟩
  | false =>
      rw [hb] at h
      simp only [Bool.false_eq_true, if_false] at h
      simp at h

theorem camOf_measPreludeP (s : RState) :
    camOf (measPreludeP s).trace = camOf s.trace := by
  rw [measPreludeP]
  have : camOf (addT (.stimIt "recording") (checkP s)).trace
      = camOf s.trace := by simp
  exact this

/-! ## The measurement cycle loop (raises when reached) -/

theorem camOf_loopP {bodyP : Nat → RState → RState}
    (hbc : ∀ (j : Nat) (s : RState),
      camOf (bodyP j s).trace = camOf s.trace) :
    ∀ (k i : Nat) (s : RState),
      camOf (loopP bodyP i k s).trace = camOf s.trace := by
  intro k
  induction k with
  | zero => intro i s; rfl
  | succ k ih => intro i s; rw [loopP, ih, hbc]

theorem bindM_eq_cont {α β : Type} {x : MStepT α}
    {f : α → RState → MStepT β} {b : β} {s2 : RState} :
    bindM x f = .cont b s2 ↔
      ∃ a s1, x = .cont a s1 ∧ f a s1 = .cont b s2 := by
  constructor
  · intro h
    cases x with
    | cont a s1 => exact ⟨a, s1, rfl, h⟩
    | halt site s1 => simp [bindM] at h
    | raise e s1 => simp [bindM] at h
  · rintro ⟨a, s1, h1, h2⟩
    rw [h1]
    exact h2

theorem bindM_cont_of {α β : Type} {x : MStepT α}
    {f : α → RState → MStepT β} {a : α} {s1 : RState} {y : MStepT β}
    (h1 : x = .cont a s1) (h2 : f a s1 = y) : bindM x f = y := by
  rw [h1]
  exact h2

theorem liftS_eq_cont {α : Type} {x : StepT α} {a : α} {s : RState} :
    liftS x = .cont a s ↔ x = .cont a s := by
  cases x <;> simp [liftS]

theorem liftS_cont_of {α : Type} {x : StepT α} {a : α} {s1 : RState}
    (h : x = .cont a s1) : liftS x = .cont a s1 := by
  rw [h]
  rfl

theorem cycleLoopM_cont (ctx : Ctx) :
    ∀ (k i : Nat) {s s' : RState} {u : Unit},
    loopM (cycleBody ctx) i k s = .cont u s' → k = 0 ∧ s' = s := by
  intro k i s s' u h
  cases k with
  | zero =>
      refine ⟨rfl, ?_⟩
      rw [loopM] at h
      injection h with _ h2
      exact h2.symm
  | succ k =>
      rw [loopM, cycleBody] at h
      simp only [check] at h
      cases hb : s.flag || s.sched s.polls with
      | true =>
          rw [hb] at h
          simp only [if_true] at h
          simp [bindM] at h
      | false =>
          rw [hb] at h
          simp only [Bool.false_eq_true, if_false] at h
          simp [bindM] at h

theorem cycleLoopM_raise (ctx : Ctx) (i k : Nat) {s : RState}
    (h : FlagFree s) :
    loopM (cycleBody ctx) i (k + 1) s
      = .raise "MEASUREMENT_START_BEEP" (checkP s) := by
  rw [loopM, cycleBody]
  simp only [check]
  rw [flagFree_check_false h]
  simp only [Bool.false_eq_true, if_false]
  rfl

theorem cycleLoopM_state (ctx : Ctx) : ∀ (k i : Nat) (s : RState),
    (mStateOf (loopM (cycleBody ctx) i k s)).trace = s.trace := by
  intro k i s
  cases k with
  | zero => rfl
  | succ k =>
      rw [loopM, cycleBody]
      simp only [check]
      cases hb : s.flag || s.sched s.polls <;> simp [bindM, mStateOf]

/-! ## The post-measurement segment -/

theorem postSeg_out (ctx : Ctx) (s : RState) (h : s.pending = []) :
    Tracks s (postSeg ctx s) (postT ctx s.totalFrames) 0 0 0 := by
  cases hL : ctx.isLastShape <;> cases hQ : ctx.isLastQueueItem <;>
    simp [postSeg, Tracks, addT, logDirect, postT, postName, postSleep,
      postLogType, postStim, hL, hQ, h]

theorem flagFree_postSeg (ctx : Ctx) {s : RState} (h : FlagFree s) :
    FlagFree (postSeg ctx s) := by
  cases hL : ctx.isLastShape <;> cases hQ : ctx.isLastQueueItem <;>
    simp [postSeg, FlagFree, addT, logDirect, hL, hQ, h.1, h.2]

theorem camOf_postSeg (ctx : Ctx) (s : RState) :
    camOf (postSeg ctx s).trace = camOf s.trace := by
  rw [postSeg]
  split
  · simp
  · split <;> simp

/-! ## The assembled run -/

theorem runSteps_cont (ctx : Ctx) {s s' : RState} {u : Unit}
    (h : runSteps ctx s = .cont u s') :
    ctx.cycles = 0 ∧ s' = runStepsP ctx s := by
  rw [runSteps] at h
  rw [bindM_eq_cont] at h
  obtain ⟨u1, s1, hT, h⟩ := h
  rw [liftS_eq_cont] at hT
  have := loopU_cont (fun j a b uu hb => trainingRep_cont ctx j hb) _ _ hT
  subst this
  rw [bindM_eq_cont] at h
  obtain ⟨u2, s2, hD, h⟩ := h
  rw [liftS_eq_cont] at hD
  have := delaySeg_cont ctx hD
  subst this
  rw [bindM_eq_cont] at h
  obtain ⟨u3, s3, hI, h⟩ := h
  rw [liftS_eq_cont] at hI
  have := instructionSeg_cont ctx hI
  subst this
  rw [bindM_eq_cont] at h
  obtain ⟨u4, s4, hM, h⟩ := h
  rw [liftS_eq_cont] at hM
  have := measPrelude_cont hM
  subst this
  rw [bindM_eq_cont] at h
  obtain ⟨u5, s5, hC, h⟩ := h
  obtain ⟨hk, hs5⟩ := cycleLoopM_cont ctx _ _ hC
  subst hs5
  injection h with _ h2
  refine ⟨hk, ?_⟩
  rw [← h2]
  rfl

theorem runSteps_total_zero (ctx : Ctx) {s : RState} (h : FlagFree s)
    (hc : ctx.cycles = 0) :
    runSteps ctx s = .cont () (runStepsP ctx s) := by
  rw [runSteps, runStepsP]
  have f1 : FlagFree (logDirect "TRIAL_START" "" s) := flagFree_logDirect h
  have f2 := flagFree_loopP (fun j a ha => flagFree_trainingRepP ctx j ha)
    ctx.reps 0 f1
  have f3 := flagFree_delaySegP ctx f2
  have f4 := flagFree_instructionSegP ctx f3
  refine bindM_cont_of (liftS_cont_of (loopU_total
    (fun j a ha => trainingRep_total ctx j ha)
    (fun j a ha => flagFree_trainingRepP ctx j ha) _ _ f1)) ?r1
  refine bindM_cont_of (liftS_cont_of (delaySeg_total ctx f2)) ?r2
  refine bindM_cont_of (liftS_cont_of (instructionSeg_total ctx f3)) ?r3
  refine bindM_cont_of (liftS_cont_of (measPrelude_total f4)) ?r4
  rw [hc]
  rfl

theorem runSteps_total_raise (ctx : Ctx) {s : RState} (h : FlagFree s)
    (hc : 1 ≤ ctx.cycles) :
    runSteps ctx s = .raise "MEASUREMENT_START_BEEP"
      (checkP (measPreludeP (instructionSegP ctx (delaySegP ctx
        (loopP (trainingRepP ctx) 0 ctx.reps
          (logDirect "TRIAL_START" "" s)))))) := by
  rw [runSteps]
  have f1 : FlagFree (logDirect "TRIAL_START" "" s) := flagFree_logDirect h
  have f2 := flagFree_loopP (fun j a ha => flagFree_trainingRepP ctx j ha)
    ctx.reps 0 f1
  have f3 := flagFree_delaySegP ctx f2
  have f4 := flagFree_instructionSegP ctx f3
  have f5 := flagFree_measPreludeP f4
  refine bindM_cont_of (liftS_cont_of (loopU_total
    (fun j a ha => trainingRep_total ctx j ha)
    (fun j a ha => flagFree_trainingRepP ctx j ha) _ _ f1)) ?r1
  refine bindM_cont_of (liftS_cont_of (delaySeg_total ctx f2)) ?r2
  refine bindM_cont_of (liftS_cont_of (instructionSeg_total ctx f3)) ?r3
  refine bindM_cont_of (liftS_cont_of (measPrelude_total f4)) ?r4
  obtain ⟨k, hk⟩ : ∃ k, ctx.cycles = k + 1 := ⟨ctx.cycles - 1, by omega⟩
  rw [hk, cycleLoopM_raise ctx 0 k f5]
  rfl

theorem runSteps_cam (ctx : Ctx) (s : RState) :
    camOf (mStateOf (runSteps ctx s)).trace = camOf s.trace := by
  rw [runSteps]
  have hcam1 : camOf (logDirect "TRIAL_START" "" s).trace
      = camOf s.trace := by simp [logDirect]
  cases hT : loopU (trainingRep ctx) 0 ctx.reps
      (logDirect "TRIAL_START" "" s) with
  | halt site s1 =>
      have hh := loopU_halt_cam (fun j a b uu hb => trainingRep_cont ctx j hb)
        (fun j a => camOf_trainingRepP ctx j a)
        (fun j a b site hb => trainingRep_halt_cam ctx j hb) _ _ hT
      simp only [liftS, bindM, mStateOf]
      rw [hh.2, hcam1]
  | cont u1 s1 =>
      have hs1 := loopU_cont (fun j a b uu hb => trainingRep_cont ctx j hb)
        _ _ hT
      have hcam2 : camOf s1.trace = camOf s.trace := by
        rw [hs1, camOf_loopP (fun j a => camOf_trainingRepP ctx j a), hcam1]
      simp only [liftS, bindM]
      cases hD : delaySeg ctx s1 with
      | halt site s2 =>
          simp only [liftS, bindM, mStateOf]
          rw [(delaySeg_halt_cam ctx hD).2, hcam2]
      | cont u2 s2 =>
          have hs2 := delaySeg_cont ctx hD
          have hcam3 : camOf s2.trace = camOf s.trace := by
            rw [hs2, camOf_delaySegP, hcam2]
          simp only [liftS, bindM]
          cases hI : instructionSeg ctx s2 with
          | halt site s3 =>
              simp only [liftS, bindM, mStateOf]
              rw [(instructionSeg_halt_cam ctx hI).2, hcam3]
          | cont u3 s3 =>
              have hs3 := instructionSeg_cont ctx hI
              have hcam4 : camOf s3.trace = camOf s.trace := by
                rw [hs3, camOf_instructionSegP, hcam3]
              simp only [liftS, bindM]
              cases hM : measPrelude s3 with
              | halt site s4 =>
                  simp only [liftS, bindM, mStateOf]
                  rw [(measPrelude_halt_cam hM).2, hcam4]
              | cont u4 s4 =>
                  have hs4 := measPrelude_cont hM
                  have hcam5 : camOf s4.trace = camOf s.trace := by
                    rw [hs4, camOf_measPreludeP, hcam4]
                  simp only [liftS, bindM]
                  cases hC : loopM (cycleBody ctx) 0 ctx.cycles s4 with
                  | cont u5 s5 =>
                      obtain ⟨hk, hs5⟩ := cycleLoopM_cont ctx _ _ hC
                      subst hs5
                      simp only [bindM, mStateOf]
                      rw [camOf_postSeg, hcam5]
                  | halt site s5 =>
                      have hst := cycleLoopM_state ctx ctx.cycles 0 s4
                      rw [hC] at hst
                      simp only [mStateOf] at hst
                      simp only [bindM, mStateOf]
                      rw [hst, hcam5]
                  | raise e s5 =>
                      have hst := cycleLoopM_state ctx ctx.cycles 0 s4
                      rw [hC] at hst
                      simp only [mStateOf] at hst
                      simp only [bindM, mStateOf]
                      rw [hst, hcam5]

theorem range'_map_eq {α : Type} (n : Nat) (f g : Nat → α)
    (hfg : ∀ j, j < n → f j = g j) :
    (List.range' 0 n).map f = (List.range n).map g := by
  rw [List.range_eq_range']
  refine List.map_congr_left ?_
  intro j hj
  rw [List.mem_range'_1] at hj
  exact hfg j (by omega)

set_option maxHeartbeats 1000000 in
theorem runStepsP_trace (ctx : Ctx) (s : RState) (hp : s.pending = [])
    (hb : s.beepCount = 0) :
    (runStepsP ctx s).trace = s.trace ++ runT ctx := by
  have hA := tracksLogDirect "TRIAL_START" "" hp
  have hB := hA.trans (trainLoopP_out ctx ctx.reps 0 _ hA.2.1)
  have hC := hB.trans (delaySegP_out ctx _ hB.2.1)
  have hD := hC.trans (instructionSegP_out ctx _ hC.2.1)
  have hE := measPreludeP_out _ hD.2.1
  have hG := postSeg_out ctx _ hE.2.1
  have e1 : (logDirect "TRIAL_START" "" s).beepCount = 0 := by
    simp [logDirect, addT, hb]
  rw [runStepsP, hG.1, hE.1, hD.1]
  rw [hE.2.2.2.2.2, e1]
  rw [runT]
  have hTr : (List.range' 0 ctx.reps).map
      (fun j => trainT ctx j (0 + 2 * (j - 0)))
      = (List.range ctx.reps).map (fun j => trainT ctx j (2 * j)) := by
    refine range'_map_eq _ _ _ ?_
    intro j hj
    congr 1
    omega
  rw [hTr]
  simp [List.append_assoc]

theorem run_ignores_abort0 (ctx : Ctx) (sch : Nat → Bool) (a b : Bool) :
    run ctx a sch = run ctx b sch := rfl

theorem run_eq_match (ctx : Ctx) (a : Bool) (sch : Nat → Bool) :
    run ctx a sch =
      match runSteps ctx { initState a sch with flag := false } with
      | .cont _ s' => ⟨.completed, s'⟩
      | .halt site s' => ⟨.aborted site, s'⟩
      | .raise e s' => ⟨.raised e, s'⟩ := rfl

theorem run_final_eq (ctx : Ctx) (a : Bool) (sch : Nat → Bool) :
    (run ctx a sch).final
      = mStateOf (runSteps ctx { initState a sch with flag := false }) := by
  rw [run_eq_match]
  cases runSteps ctx { initState a sch with flag := false } <;> rfl

theorem run_cam (ctx : Ctx) (a : Bool) (sch : Nat → Bool) :
    camOf (run ctx a sch).final.trace = [] := by
  rw [run_final_eq, runSteps_cam]
  simp [initState, camOf]

theorem run_outcome_completed (ctx : Ctx) {a : Bool} {sch : Nat → Bool}
    (h : (run ctx a sch).outcome = .completed) :
    ctx.cycles = 0 ∧ (run ctx a sch).final.trace = runT ctx := by
  rw [run_eq_match] at h ⊢
  cases hr : runSteps ctx { initState a sch with flag := false } with
  | halt site s' => rw [hr] at h; simp at h
  | raise e s' => rw [hr] at h; simp at h
  | cont u s' =>
      obtain ⟨hk, hs⟩ := runSteps_cont ctx hr
      refine ⟨hk, ?_⟩
      simp only
      rw [hs, runStepsP_trace ctx { initState a sch with flag := false }
        rfl rfl]
      rfl

theorem run_no_abort_outcome (ctx : Ctx) (a : Bool) {sch : Nat → Bool}
    (h : ∀ n, sch n = false) :
    (run ctx a sch).outcome
      = (if ctx.cycles = 0 then RunOutcome.completed
         else .raised "MEASUREMENT_START_BEEP") := by
  rw [run_eq_match]
  by_cases hc : ctx.cycles = 0
  · rw [runSteps_total_zero ctx ⟨rfl, h⟩ hc, if_pos hc]
  · rw [runSteps_total_raise ctx ⟨rfl, h⟩ (by omega), if_neg hc]


/-! ## Log-type and phase-tag computation over the closed-form trace -/

theorem filterMapOf_flatten {α β : Type} (g : α → Option β) (L : List (List α)) :
    L.flatten.filterMap g = (L.map (fun l => l.filterMap g)).flatten := by
  induction L with
  | nil => rfl
  | cons l L ih =>
      simp only [List.flatten_cons, List.map_cons, List.filterMap_append, ih]

theorem logTypesOf_append (l1 l2 : List TraceItem) :
    logTypesOf (l1 ++ l2) = logTypesOf l1 ++ logTypesOf l2 := by
  simp [logTypesOf]

theorem logTypesOf_flatten (L : List (List TraceItem)) :
    logTypesOf L.flatten = (L.map logTypesOf).flatten :=
  filterMapOf_flatten _ L

theorem logTypesOf_waitT (k : Nat) : logTypesOf (waitT k) = [] := by
  induction k with
  | zero => rfl
  | succ n ih =>
      rw [waitT, List.replicate_succ,
        show (TraceItem.flipIt :: List.replicate n TraceItem.flipIt)
          = [TraceItem.flipIt] ++ waitT n from rfl,
        logTypesOf_append, ih]
      rfl

theorem logTypesOf_holdT (ctx : Ctx) : ∀ (k : Nat) (f : Int),
    logTypesOf (holdT ctx f k) = []
  | 0, _ => rfl
  | k + 1, f => by
      rw [holdT, logTypesOf_append, logTypesOf_holdT ctx k (f + 1)]
      split <;> rfl

theorem logTypesOf_trainT (ctx : Ctx) (i b : Nat) :
    logTypesOf (trainT ctx i b) = trainEvents := by
  rw [trainT]
  repeat rw [logTypesOf_append]
  rw [logTypesOf_holdT, logTypesOf_waitT, logTypesOf_waitT]
  cases hbs : holdBs ctx 1 (ctx.nShape - 1).toNat false <;>
    simp [logTypesOf, trainEvents]

theorem logTypesOf_delayT (ctx : Ctx) : logTypesOf (delayT ctx) = [] := by
  rw [delayT]
  split
  · rw [logTypesOf_append, logTypesOf_waitT]; rfl
  · rfl

theorem logTypesOf_instrT (ctx : Ctx) :
    logTypesOf (instrT ctx)
      = ["INSTRUCTION_CLOSE_EYES", "INSTRUCTION_STARTING"] := by
  rw [instrT]
  repeat rw [logTypesOf_append]
  rw [logTypesOf_waitT, logTypesOf_waitT]
  rfl

theorem logTypesOf_postT (ctx : Ctx) (tf : Nat) :
    logTypesOf (postT ctx tf) = [postLogType ctx, "TRIAL_END"] := rfl

theorem logTypesOf_runT (ctx : Ctx) :
    logTypesOf (runT ctx) = canonicalEvents ctx := by
  rw [runT]
  repeat rw [logTypesOf_append]
  rw [logTypesOf_flatten, logTypesOf_delayT,
    logTypesOf_instrT, logTypesOf_postT, List.map_map]
  have h1 : (List.range ctx.reps).map (logTypesOf ∘ fun j => trainT ctx j (2 * j))
      = List.replicate ctx.reps trainEvents := by
    have he : ∀ j ∈ List.range ctx.reps,
        (logTypesOf ∘ fun j => trainT ctx j (2 * j)) j = trainEvents := by
      intro j hj
      exact logTypesOf_trainT ctx j (2 * j)
    rw [List.map_congr_left he, List.map_const', List.length_range]
  rw [h1, canonicalEvents]
  simp [logTypesOf]

theorem phaseTagsOf_append (l1 l2 : List TraceItem) :
    phaseTagsOf (l1 ++ l2) = phaseTagsOf l1 ++ phaseTagsOf l2 := by
  simp [phaseTagsOf]

theorem phaseTagsOf_flatten (L : List (List TraceItem)) :
    phaseTagsOf L.flatten = (L.map phaseTagsOf).flatten :=
  filterMapOf_flatten _ L

theorem phaseTagsOf_waitT (k : Nat) : phaseTagsOf (waitT k) = [] := by
  induction k with
  | zero => rfl
  | succ n ih =>
      rw [waitT, List.replicate_succ,
        show (TraceItem.flipIt :: List.replicate n TraceItem.flipIt)
          = [TraceItem.flipIt] ++ waitT n from rfl,
        phaseTagsOf_append, ih]
      rfl

theorem phaseTagsOf_holdT (ctx : Ctx) : ∀ (k : Nat) (f : Int),
    phaseTagsOf (holdT ctx f k) = []
  | 0, _ => rfl
  | k + 1, f => by
      rw [holdT, phaseTagsOf_append, phaseTagsOf_holdT ctx k (f + 1)]
      split <;> rfl

theorem phaseTagsOf_trainT (ctx : Ctx) (i b : Nat) :
    phaseTagsOf (trainT ctx i b)
      = [RunPhase.trainingShape, .trainingBlank, .trainingBlank] := by
  rw [trainT]
  repeat rw [phaseTagsOf_append]
  rw [phaseTagsOf_holdT, phaseTagsOf_waitT, phaseTagsOf_waitT]
  cases hbs : holdBs ctx 1 (ctx.nShape - 1).toNat false <;>
    simp [phaseTagsOf]

theorem phaseTagsOf_delayT (ctx : Ctx) :
    phaseTagsOf (delayT ctx)
      = (if 0 < ctx.nTrainToMeasDelay then [RunPhase.interTrial] else []) := by
  rw [delayT]
  by_cases hlt : 0 < ctx.nTrainToMeasDelay
  · rw [if_pos hlt, if_pos hlt, phaseTagsOf_append, phaseTagsOf_waitT]
    rfl
  · rw [if_neg hlt, if_neg hlt]
    rfl

theorem phaseTagsOf_instrT (ctx : Ctx) :
    phaseTagsOf (instrT ctx)
      = [RunPhase.instructionCloseEyes, .instructionWait,
         .instructionStarting, .instructionReady] := by
  rw [instrT]
  repeat rw [phaseTagsOf_append]
  rw [phaseTagsOf_waitT, phaseTagsOf_waitT]
  rfl

theorem phaseTagsOf_postT (ctx : Ctx) (tf : Nat) :
    phaseTagsOf (postT ctx tf) = [RunPhase.instructionPost] := rfl

theorem phaseTagsOf_runT (ctx : Ctx) :
    phaseTagsOf (runT ctx) = canonicalPhases ctx := by
  rw [runT]
  repeat rw [phaseTagsOf_append]
  rw [phaseTagsOf_flatten, phaseTagsOf_delayT,
    phaseTagsOf_instrT, phaseTagsOf_postT, List.map_map]
  have h1 : (List.range ctx.reps).map (phaseTagsOf ∘ fun j => trainT ctx j (2 * j))
      = List.replicate ctx.reps
          [RunPhase.trainingShape, .trainingBlank, .trainingBlank] := by
    have he : ∀ j ∈ List.range ctx.reps,
        (phaseTagsOf ∘ fun j => trainT ctx j (2 * j)) j
          = [RunPhase.trainingShape, .trainingBlank, .trainingBlank] := by
      intro j hj
      exact phaseTagsOf_trainT ctx j (2 * j)
    rw [List.map_congr_left he, List.map_const', List.length_range]
  rw [h1, canonicalPhases]
  simp [phaseTagsOf]

/-! ## Counting the inter-imagination delays -/

theorem countInterDelay_append (l1 l2 : List RunPhase) :
    countInterDelay (l1 ++ l2) = countInterDelay l1 + countInterDelay l2 := by
  induction l1 with
  | nil => simp [countInterDelay]
  | cons t r ih =>
      rw [List.cons_append, countInterDelay, countInterDelay, ih]
      omega

theorem countInterDelay_train (n : Nat) :
    countInterDelay ((List.replicate n
      [RunPhase.trainingShape, .trainingBlank, .trainingBlank]).flatten) = 0 := by
  induction n with
  | zero => rfl
  | succ m ih =>
      rw [List.replicate_succ, List.flatten_cons, countInterDelay_append, ih]
      rfl

theorem countInterDelay_canonicalPhases (ctx : Ctx) :
    countInterDelay (canonicalPhases ctx) = 0 := by
  rw [canonicalPhases]
  repeat rw [countInterDelay_append]
  rw [countInterDelay_train]
  have hd : countInterDelay
      (if 0 < ctx.nTrainToMeasDelay then [RunPhase.interTrial] else []) = 0 := by
    by_cases hlt : 0 < ctx.nTrainToMeasDelay
    · rw [if_pos hlt]; rfl
    · rw [if_neg hlt]; rfl
  rw [hd]
  simp [countInterDelay]

/-! ## Audio/visual alignment of the shape-hold loop -/

theorem avOf_append (l1 l2 : List TraceItem) :
    avOf (l1 ++ l2) = avOf l1 ++ avOf l2 := by
  simp [avOf]

theorem avOf_waitT (k : Nat) : avOf (waitT k) = List.replicate k AVIt.flipA := by
  induction k with
  | zero => rfl
  | succ n ih =>
      rw [waitT, List.replicate_succ,
        show (TraceItem.flipIt :: List.replicate n TraceItem.flipIt)
          = [TraceItem.flipIt] ++ waitT n from rfl,
        avOf_append, ih, List.replicate_succ]
      rfl

theorem Jt_succ (ctx : Ctx) (m : Nat) :
    Jt ctx (m + 1) = [TraceItem.drawIt ctx.shapeName, .flipIt] ++ Jt ctx m := by
  rw [Jt, List.replicate_succ, List.flatten_cons]
  rfl

theorem Ja_succ (m : Nat) :
    Ja (m + 1) = [AVIt.drawA, .flipA] ++ Ja m := by
  rw [Ja, List.replicate_succ, List.flatten_cons]
  rfl

theorem avOf_Jt (ctx : Ctx) (m : Nat) : avOf (Jt ctx m) = Ja m := by
  induction m with
  | zero => rfl
  | succ n ih =>
      rw [Jt_succ, avOf_append, ih, Ja_succ]
      rfl

theorem holdT_ge (ctx : Ctx) : ∀ (k : Nat) (f : Int),
    ctx.nStartBeep < f → holdT ctx f k = Jt ctx k
  | 0, _, _ => rfl
  | k + 1, f, h => by
      rw [holdT, if_neg (by omega), holdT_ge ctx k (f + 1) (by omega), Jt_succ]

theorem holdT_big (ctx : Ctx) : ∀ (k : Nat) (f : Int),
    f + (k : Int) ≤ ctx.nStartBeep → holdT ctx f k = Jt ctx k
  | 0, _, _ => rfl
  | k + 1, f, h => by
      rw [holdT, if_neg (by omega), holdT_big ctx k (f + 1) (by omega), Jt_succ]

theorem holdT_hit (ctx : Ctx) : ∀ (k : Nat) (f : Int),
    f ≤ ctx.nStartBeep → ctx.nStartBeep < f + (k : Int) →
    holdT ctx f k
      = Jt ctx (ctx.nStartBeep - f).toNat
        ++ [TraceItem.drawIt ctx.shapeName,
            .audioIt false "start_imagine" true, .flipIt]
        ++ Jt ctx (k - ((ctx.nStartBeep - f).toNat + 1))
  | 0, f, h1, h2 => absurd h2 (by omega)
  | k + 1, f, h1, h2 => by
      by_cases he : f = ctx.nStartBeep
      · rw [holdT, if_pos he, holdT_ge ctx k (f + 1) (by omega)]
        have e1 : (ctx.nStartBeep - f).toNat = 0 := by omega
        rw [e1]
        have e2 : k + 1 - (0 + 1) = k := by omega
        rw [e2]
        rfl
      · rw [holdT, if_neg he,
          holdT_hit ctx k (f + 1) (by omega) (by omega)]
        have e1 : (ctx.nStartBeep - f).toNat
            = (ctx.nStartBeep - (f + 1)).toNat + 1 := by omega
        rw [e1]
        have e2 : k + 1 - ((ctx.nStartBeep - (f + 1)).toNat + 1 + 1)
            = k - ((ctx.nStartBeep - (f + 1)).toNat + 1) := by omega
        rw [e2, Jt_succ]
        simp [List.append_assoc]

theorem holdBs_true (ctx : Ctx) : ∀ (k : Nat) (f : Int),
    holdBs ctx f k true = true
  | 0, _ => rfl
  | k + 1, f => by
      rw [holdBs,
        show (if f = ctx.nStartBeep then true else true) = true from by
          split <;> rfl,
        holdBs_true ctx k (f + 1)]

theorem holdBs_big (ctx : Ctx) : ∀ (k : Nat) (f : Int) (bs : Bool),
    f + (k : Int) ≤ ctx.nStartBeep → holdBs ctx f k bs = bs
  | 0, _, _, _ => rfl
  | k + 1, f, bs, h => by
      rw [holdBs, if_neg (by omega), holdBs_big ctx k (f + 1) bs (by omega)]

theorem holdBs_hit (ctx : Ctx) : ∀ (k : Nat) (f : Int) (bs : Bool),
    f ≤ ctx.nStartBeep → ctx.nStartBeep < f + (k : Int) →
    holdBs ctx f k bs = true
  | 0, f, bs, h1, h2 => absurd h2 (by omega)
  | k + 1, f, bs, h1, h2 => by
      by_cases he : f = ctx.nStartBeep
      · rw [holdBs, if_pos he, holdBs_true]
      · rw [holdBs, if_neg he,
          holdBs_hit ctx k (f + 1) _ (by omega) (by omega)]

theorem avOf_trainT (ctx : Ctx) (i b : Nat) :
    avOf (trainT ctx i b)
      = [AVIt.drawA, .playA "start_imagine" true, .flipA]
        ++ avOf (holdT ctx 1 (ctx.nShape - 1).toNat)
        ++ (if holdBs ctx 1 (ctx.nShape - 1).toNat false then []
            else [AVIt.stopA "start_imagine" false])
        ++ avTrainTail ctx := by
  rw [trainT]
  repeat rw [avOf_append]
  rw [avOf_waitT, avOf_waitT]
  cases hbs : holdBs ctx 1 (ctx.nShape - 1).toNat false <;>
    simp [avOf, avTrainTail, List.append_assoc]

/-! ## The claims -/

/-- Claim C1: the spec says `TrialPhase` has a member for every distinct
sub-interval of a trial, including the five measurement sub-intervals, so
that every phase-change callback of `run` refers to a defined member.  The
code violates this: `run` references the attributes `MEASUREMENT_START_BEEP`,
`MEASUREMENT_RECORDING_DELAY`, `MEASUREMENT_IMAGINING`,
`MEASUREMENT_END_BEEP` and `MEASUREMENT_INTER_DELAY` on `TrialPhase`
(`trial_protocol.py:313,337,354,373,398`), but `enums.py:18-29` defines only
`MEASUREMENT_BEEP` and `MEASUREMENT_SILENCE`.  This theorem exhibits a
concrete run (one repetition, one cycle, no abort) ending in the
`AttributeError` raised by the first of those accesses, and checks that
none of the five attribute names `run` uses is among the member names
`TrialPhase` defines. -/
theorem c1_missing_measurement_phase_members :
    (run ctxC false neverAbort).outcome
        = .raised "MEASUREMENT_START_BEEP"
    ∧ RunPhase.attrName .measurementStartBeep = "MEASUREMENT_START_BEEP"
    ∧ RunPhase.attrName .measurementStartBeep ∉ trialPhaseMemberNames
    ∧ RunPhase.attrName .measurementRecordingDelay ∉ trialPhaseMemberNames
    ∧ RunPhase.attrName .measurementImagining ∉ trialPhaseMemberNames
    ∧ RunPhase.attrName .measurementEndBeep ∉ trialPhaseMemberNames
    ∧ RunPhase.attrName .measurementInterDelay ∉ trialPhaseMemberNames
    ∧ TrialPhase.pyName .measurementBeep = "MEASUREMENT_BEEP"
    ∧ TrialPhase.pyName .measurementSilence = "MEASUREMENT_SILENCE" := by
  decide

/-- Claim C2: the claimed guarantee — abort while the camera is recording
stops the camera exactly once before `run` returns `False` — can never be
exercised, because the camera never records during `run`: the
`AttributeError` at `trial_protocol.py:313` is raised in every
non-aborted measurement cycle iteration, before `start_recording`
(line 346) and before the active-recording wait (lines 357-361).  This
theorem proves that in every execution of `run`, for any abort oracle,
the camera call sequence is empty, and that with at least one configured
cycle and no abort, `run` raises at the first measurement phase callback
instead of reaching the recording. -/
theorem c2_camera_never_records (ctx : Ctx) (a : Bool)
    (sch : Nat → Bool) :
    camOf (run ctx a sch).final.trace = []
    ∧ ((∀ n, sch n = false) → 1 ≤ ctx.cycles →
        (run ctx a sch).outcome = .raised "MEASUREMENT_START_BEEP") := by
  refine ⟨run_cam ctx a sch, ?_⟩
  intro h hc
  rw [run_no_abort_outcome ctx a h, if_neg (by omega)]

/-- Witness for C2: the concrete run `ctxC` (one cycle, no abort) makes
no camera call and ends in the `AttributeError`. -/
theorem c2_witness :
    camOf (run ctxC false neverAbort).final.trace = []
    ∧ (run ctxC false neverAbort).outcome
        = .raised "MEASUREMENT_START_BEEP" :=
  ⟨(c2_camera_never_records ctxC false neverAbort).1,
   (c2_camera_never_records ctxC false neverAbort).2 (fun _ => rfl)
     (by decide)⟩

/-- Claim C3: for every `duration_to_frames` function and all settings,
`TrialProtocol.__init__` (`trial_protocol.py:86-98`) sets
`n_recording_frames` to `n_imagination − n_start_beep − n_recording_delay`
when that difference is positive (without warning), and otherwise clamps it
to exactly 1 and sets the warning flag.  `protocolInit` is a total function,
so the construction never raises for this configuration inconsistency. -/
theorem c3_recording_frames_clamped (d2f : ℚ → Int) (t : TimingSettings)
    (a : AudioSettings) :
    (0 < d2f t.imaginationDuration - d2f a.startImagineDuration
        - d2f t.recordingDelay →
      (protocolInit d2f t a).nRecordingFrames
          = d2f t.imaginationDuration - d2f a.startImagineDuration
            - d2f t.recordingDelay
        ∧ (protocolInit d2f t a).warned = false)
    ∧ (d2f t.imaginationDuration - d2f a.startImagineDuration
        - d2f t.recordingDelay ≤ 0 →
      (protocolInit d2f t a).nRecordingFrames = 1
        ∧ (protocolInit d2f t a).warned = true) := by
  constructor
  · intro h
    have hn : ¬(d2f t.imaginationDuration - d2f a.startImagineDuration
        - d2f t.recordingDelay < 1) := by omega
    simp [protocolInit, hn]
  · intro h
    have hy : d2f t.imaginationDuration - d2f a.startImagineDuration
        - d2f t.recordingDelay < 1 := by omega
    simp [protocolInit, hy]

/-- Witness for C3: at `d2fW`/`tW`/`aW` the window is `1` frame and no
warning is set; at `tW2` it is non-positive, so it is clamped to `1` with
the warning set. -/
theorem c3_witness :
    ((protocolInit d2fW tW aW).nRecordingFrames
        = d2fW tW.imaginationDuration - d2fW aW.startImagineDuration
          - d2fW tW.recordingDelay
      ∧ (protocolInit d2fW tW aW).warned = false)
    ∧ ((protocolInit d2fW tW2 aW).nRecordingFrames = 1
      ∧ (protocolInit d2fW tW2 aW).warned = true) :=
  ⟨(c3_recording_frames_clamped d2fW tW aW).1 (by decide),
   (c3_recording_frames_clamped d2fW tW2 aW).2 (by decide)⟩

/-- Counterexample to C4 as stated: `ctx0` (one training repetition, zero
measurement cycles — the only kind of trial that can complete, every
first cycle iteration raising `AttributeError`) completes, and its logged
event types are not the sequence the spec sentence describes: the spec
omits the initial `TRIAL_START` row, the
`TRAINING_SHAPE_ON`/`TRAINING_SHAPE_OFF` rows logged with each training
beep, and the post-measurement instruction row logged before the
terminal `TRIAL_END`. -/
theorem c4_counterexample_event_order :
    (run ctx0 false neverAbort).outcome = .completed
    ∧ ctx0.reps = 1 ∧ ctx0.cycles = 0
    ∧ logTypesOf (run ctx0 false neverAbort).final.trace ≠ c4ClaimSeq 1 0 := by
  decide

/-- Claim C4 (amended): only trials with `imagination_cycles = 0` can
complete naturally (a first measurement cycle iteration raises
`AttributeError` unless aborted), and for every trial that completes the
sequence of event types passed to the Event Logger is exactly: one
`TRIAL_START` row; then per training repetition `TRAINING_START_BEEP`,
`TRAINING_SHAPE_ON`, `TRAINING_END_BEEP`, `TRAINING_SHAPE_OFF`; then the
instruction markers `INSTRUCTION_CLOSE_EYES` and `INSTRUCTION_STARTING`;
then the post-measurement instruction row and exactly one terminal
`TRIAL_END` (no per-cycle rows) — for all configured durations and
counts. -/
theorem c4_event_order_amended (ctx : Ctx) (a : Bool) (sch : Nat → Bool)
    (h : (run ctx a sch).outcome = .completed) :
    ctx.cycles = 0
    ∧ logTypesOf (run ctx a sch).final.trace = canonicalEvents ctx := by
  obtain ⟨hc, htr⟩ := run_outcome_completed ctx h
  exact ⟨hc, by rw [htr, logTypesOf_runT]⟩

/-- Witness for C4 (amended): the concrete run `ctx0` completes and its
logged event types are the canonical sequence. -/
theorem c4_witness :
    ctx0.cycles = 0
    ∧ logTypesOf (run ctx0 false neverAbort).final.trace
        = canonicalEvents ctx0 :=
  c4_event_order_amended ctx0 false neverAbort (by decide)

/-- Claim C5: in every training repetition (any loop index, any entry state
with a drained flip queue and no abort), the audio/visual event sequence
is: the shape is drawn and the start beep plays on the onset flip; the
shape is then held for `n_shape − 1` further draw/flip frames; when
`n_start_beep < n_shape` the start beep is stopped via an on-flip callback
exactly at frame `n_start_beep` (counting the onset flip as frame 1) and
the remaining frames are plain; when `n_shape ≤ n_start_beep` all
`n_shape − 1` held frames are plain and the beep is stopped directly
(not on a flip) immediately after the loop (`trial_protocol.py:199-213`). -/
theorem c5_start_beep_stop_alignment (ctx : Ctx) (i : Nat) (s : RState)
    (hFF : FlagFree s) (hp : s.pending = []) (h1 : 1 ≤ ctx.nStartBeep) :
    (ctx.nStartBeep < ctx.nShape →
      avOf (stateOf (trainingRep ctx i s)).trace
        = avOf s.trace
          ++ ([AVIt.drawA, .playA "start_imagine" true, .flipA]
              ++ Ja (ctx.nStartBeep.toNat - 1)
              ++ [AVIt.drawA, .stopA "start_imagine" true, .flipA]
              ++ Ja ((ctx.nShape - 1).toNat - ctx.nStartBeep.toNat)
              ++ avTrainTail ctx))
    ∧ (ctx.nShape ≤ ctx.nStartBeep →
      avOf (stateOf (trainingRep ctx i s)).trace
        = avOf s.trace
          ++ ([AVIt.drawA, .playA "start_imagine" true, .flipA]
              ++ Ja ((ctx.nShape - 1).toNat)
              ++ [AVIt.stopA "start_imagine" false]
              ++ avTrainTail ctx)) := by
  have htr : (stateOf (trainingRep ctx i s)).trace
      = s.trace ++ trainT ctx i s.beepCount := by
    rw [trainingRep_total ctx i hFF]
    exact (trainingRepP_out ctx i s hp).1
  constructor
  · intro hlt
    rw [htr, avOf_append, avOf_trainT]
    have hk : ctx.nStartBeep < 1 + (((ctx.nShape - 1).toNat : Nat) : Int) := by
      omega
    rw [holdT_hit ctx ((ctx.nShape - 1).toNat) 1 h1 hk,
      holdBs_hit ctx ((ctx.nShape - 1).toNat) 1 false h1 hk,
      avOf_append, avOf_append, avOf_Jt, avOf_Jt]
    have e2 : (ctx.nShape - 1).toNat - ((ctx.nStartBeep - 1).toNat + 1)
        = (ctx.nShape - 1).toNat - ctx.nStartBeep.toNat := by omega
    have e1 : (ctx.nStartBeep - 1).toNat = ctx.nStartBeep.toNat - 1 := by omega
    rw [e2, e1]
    simp [avOf, List.append_assoc]
  · intro hge
    rw [htr, avOf_append, avOf_trainT]
    have hk : (1 : Int) + (((ctx.nShape - 1).toNat : Nat) : Int)
        ≤ ctx.nStartBeep := by omega
    rw [holdT_big ctx ((ctx.nShape - 1).toNat) 1 hk,
      holdBs_big ctx ((ctx.nShape - 1).toNat) 1 false hk, avOf_Jt]
    simp [List.append_assoc]

/-- Witness for C5: the concrete run context (`n_start_beep = 1`,
`n_shape = 3`) from the initial state, first branch. -/
theorem c5_witness :
    avOf (stateOf (trainingRep ctxC 0 (initState false neverAbort))).trace
      = avOf (initState false neverAbort).trace
        ++ ([AVIt.drawA, .playA "start_imagine" true, .flipA]
            ++ Ja (ctxC.nStartBeep.toNat - 1)
            ++ [AVIt.drawA, .stopA "start_imagine" true, .flipA]
            ++ Ja ((ctxC.nShape - 1).toNat - ctxC.nStartBeep.toNat)
            ++ avTrainTail ctxC) :=
  (c5_start_beep_stop_alignment ctxC 0 (initState false neverAbort)
    ⟨rfl, fun n => rfl⟩ rfl (by decide)).1 (by decide)

/-- Claim C6: the post-measurement segment plays exactly one spoken cue,
chosen by `is_last_shape`/`is_last_queue_item` — "open_your_eyes" when
`is_last_shape` is false, "experiment_completed" when both flags are true,
"next_participant_please" when only `is_last_shape` is true — then performs
one `precise_sleep` wall-clock wait (not a frame loop) of at least 5
seconds, which is `max 5 (cue duration + 1)` in the completion case and
exactly 5 otherwise (`trial_protocol.py:407-424`). -/
theorem c6_post_measurement_cue_selection (ctx : Ctx) (s : RState) :
    postOf (postSeg ctx s).trace
      = postOf s.trace
        ++ [PostIt.instrP (postName ctx), .sleepP (postSleep ctx)]
    ∧ 5 ≤ postSleep ctx
    ∧ postName ctx = (if ctx.isLastShape = false then "open_your_eyes"
        else if ctx.isLastQueueItem = true then "experiment_completed"
        else "next_participant_please")
    ∧ postSleep ctx = (if ctx.isLastShape = false then 5
        else if ctx.isLastQueueItem = true then
          max 5 (ctx.instrDur "experiment_completed" + 1)
        else 5) := by
  refine ⟨?_, ?_, ?_, ?_⟩
  · cases hL : ctx.isLastShape <;> cases hQ : ctx.isLastQueueItem <;>
      simp [postSeg, postName, postSleep, postOf, addT, logDirect, hL, hQ,
        List.filterMap_append]
  · cases hL : ctx.isLastShape <;> cases hQ : ctx.isLastQueueItem <;>
      simp [postSleep, hL, hQ, le_max_left]
  · cases hL : ctx.isLastShape <;> cases hQ : ctx.isLastQueueItem <;>
      simp [postName, hL, hQ]
  · cases hL : ctx.isLastShape <;> cases hQ : ctx.isLastQueueItem <;>
      simp [postSleep, hL, hQ]

/-- Claim C7: the claimed behaviour — the `n_inter_delay`-frame wait
performed after every measurement cycle except the last — never happens,
because no measurement cycle ever runs its body: the `AttributeError` at
`trial_protocol.py:313` is raised in every non-aborted cycle iteration,
long before line 398 (whose own `TrialPhase.MEASUREMENT_INTER_DELAY`
access would also raise).  This theorem proves that a completed trial has
`imagination_cycles = 0`, canonical phase tags, and zero
inter-imagination-delay phase callbacks, and that with at least one
configured cycle and no abort `run` raises at the first measurement phase
callback. -/
theorem c7_inter_delay_never_performed (ctx : Ctx) (a : Bool)
    (sch : Nat → Bool) :
    ((run ctx a sch).outcome = .completed →
      ctx.cycles = 0
      ∧ phaseTagsOf (run ctx a sch).final.trace = canonicalPhases ctx
      ∧ countInterDelay (phaseTagsOf (run ctx a sch).final.trace) = 0)
    ∧ ((∀ n, sch n = false) → 1 ≤ ctx.cycles →
      (run ctx a sch).outcome = .raised "MEASUREMENT_START_BEEP") := by
  constructor
  · intro h
    obtain ⟨hc, htr⟩ := run_outcome_completed ctx h
    rw [htr, phaseTagsOf_runT]
    exact ⟨hc, rfl, countInterDelay_canonicalPhases ctx⟩
  · intro h hc
    rw [run_no_abort_outcome ctx a h, if_neg (by omega)]

/-- Witness for C7: the zero-cycle run `ctx0` completes with no
inter-delay callbacks, and the one-cycle run `ctxC` raises. -/
theorem c7_witness :
    (ctx0.cycles = 0
      ∧ phaseTagsOf (run ctx0 false neverAbort).final.trace
          = canonicalPhases ctx0
      ∧ countInterDelay
          (phaseTagsOf (run ctx0 false neverAbort).final.trace) = 0)
    ∧ (run ctxC false neverAbort).outcome
        = .raised "MEASUREMENT_START_BEEP" :=
  ⟨(c7_inter_delay_never_performed ctx0 false neverAbort).1 (by decide),
   (c7_inter_delay_never_performed ctxC false neverAbort).2 (fun _ => rfl)
     (by decide)⟩

/-- Claim C8: `stop_recording` on a recorder that is not recording is a
safe no-op — it returns the frame count of the last completed recording
(0 if none ever ran), adds no driver-log line, and leaves the state
unchanged (`camera_webcam.py:151-155`: the stop event is set and `join` on
a dead/absent thread returns immediately; the `finally` block that logs
and flips the flag only runs inside an active record loop).  Likewise
stopping an audio cue that is not playing leaves the playing set unchanged
(spec §6). -/
theorem c8_stop_idempotent (st : WebcamState) (captured : Nat)
    (name : String) (playing : List String)
    (hrec : st.recording = false) (hnp : name ∉ playing) :
    webcamStop captured st = (st.framesCaptured, st)
    ∧ (webcamStop captured st).2.infoLogs = st.infoLogs
    ∧ webcamStop captured webcamInit = (0, webcamInit)
    ∧ audioStopSpec name playing = playing := by
  have h1 : webcamStop captured st = (st.framesCaptured, st) := by
    rw [webcamStop, if_neg]
    simp [hrec]
  refine ⟨h1, by rw [h1], rfl, ?_⟩
  rw [audioStopSpec]
  refine List.filter_eq_self.mpr ?_
  intro m hm
  simp only [bne_iff_ne, ne_eq, decide_not]
  intro e
  exact hnp (e ▸ hm)

/-- Witness for C8: a fresh recorder and a playing set without the stopped
cue. -/
theorem c8_witness :
    webcamStop 7 webcamInit = (webcamInit.framesCaptured, webcamInit)
    ∧ (webcamStop 7 webcamInit).2.infoLogs = webcamInit.infoLogs
    ∧ webcamStop 7 webcamInit = (0, webcamInit)
    ∧ audioStopSpec "start_imagine" ["end_imagine"] = ["end_imagine"] :=
  c8_stop_idempotent webcamInit 7 "start_imagine" ["end_imagine"] rfl
    (by decide)

/-- Claim C9: every `EventLogger.log` call appends exactly one row — the
seven columns `timestamp_s, elapsed_ms, event_type, subject, shape, rep,
detail` in that order, matching the header written at construction — and
flushes within the same call, so after `log` returns every row is on disk
(`flushedRows` equals the row count) and the record is append-only (the
prior rows are a prefix of the new ones). -/
theorem c9_logger_appends_one_flushed_row (fmt6 fmt3 : ℚ → String)
    (now : ℚ) (st : EventLog) (etype subject shape rep detail : String) :
    (eventLogLog fmt6 fmt3 now st etype subject shape rep detail).rows
      = st.rows ++ [eventLogRow fmt6 fmt3 now st etype subject shape rep detail]
    ∧ eventLogRow fmt6 fmt3 now st etype subject shape rep detail
      = [fmt6 now, fmt3 (eventLogElapsed st.startTime now),
         etype, subject, shape, rep, detail]
    ∧ (eventLogRow fmt6 fmt3 now st etype subject shape rep detail).length
      = eventLoggerHeader.length
    ∧ eventLoggerHeader
      = ["timestamp_s", "elapsed_ms", "event_type",
         "subject", "shape", "rep", "detail"]
    ∧ (eventLogLog fmt6 fmt3 now st etype subject shape rep detail).flushedRows
      = (eventLogLog fmt6 fmt3 now st etype subject shape rep detail).rows.length
    ∧ (eventLogLog fmt6 fmt3 now st etype subject shape rep detail).startTime
      = st.startTime := by
  refine ⟨rfl, rfl, rfl, rfl, ?_, rfl⟩
  simp [eventLogLog]

/-- Claim C10: `run` resets the abort flag at entry
(`trial_protocol.py:147`) before any phase executes, so the result is the
same whatever `self._abort` held when `run` was called (a `request_abort`
between trials has no effect), and `run` can return `False` only if an
abort is requested after it has started: whenever the outcome is an early
`return False`, some abort poll during the run read `true`.  (A no-abort
run does not return `False`: it completes when `imagination_cycles = 0`
and otherwise ends in the measurement-phase `AttributeError`.) -/
theorem c10_abort_flag_reset_at_entry (ctx : Ctx) (sch : Nat → Bool)
    (a b : Bool) :
    run ctx a sch = run ctx b sch
    ∧ (∀ site, (run ctx a sch).outcome = .aborted site →
        ∃ n, sch n = true) := by
  refine ⟨run_ignores_abort0 ctx sch a b, ?_⟩
  intro site h
  by_contra hno
  have hall : ∀ n, sch n = false := by
    intro n
    cases hn : sch n
    · rfl
    · exact absurd ⟨n, hn⟩ hno
  rw [run_no_abort_outcome ctx a hall] at h
  by_cases hc : ctx.cycles = 0
  · rw [if_pos hc] at h
    exact RunOutcome.noConfusion h
  · rw [if_neg hc] at h
    exact RunOutcome.noConfusion h

/-- Witness for C10: a stale pre-run abort request (`abort0 = true`) has
no effect, and the run aborted by `schedC2` at the cycle-top poll indeed
had an abort requested during it. -/
theorem c10_witness :
    (run ctxC true schedC2 = run ctxC false schedC2)
    ∧ ∃ n, schedC2 n = true :=
  ⟨(c10_abort_flag_reset_at_entry ctxC schedC2 true false).1,
   (c10_abort_flag_reset_at_entry ctxC schedC2 true false).2
     (AbortSite.cycleTop) (by decide)⟩

end MentalImagery
